import Mathlib

/-!
Verification development for the SAIPMP core (`app%otr2.py`):
the column normalizer `standardize_columns` and the index computation
`compute_ipmp`.  Tables (pandas DataFrames) are embedded as ordered lists of
named columns of cells; cells are either numbers (embedded as exact
rationals) or strings.  Machine floats are modelled by `ℚ`: every claim here
is about exact values, and the spec states its numeric properties in exact
arithmetic.
-/

/-!
### Kernel-evaluable rational arithmetic

`Rat.add`, `Rat.mul`, … normalize through `Nat.gcd`, which is defined by
well-founded recursion and therefore does not evaluate inside the kernel.
The embedding instead uses the operations below, each one proved equal to
the corresponding field operation on `ℚ` (`qAdd_eq`, `qMul_eq`, `qSub_eq`,
`qDiv_eq`), so that closed tables can be computed by `decide`.
-/

/-- Euclid's algorithm with explicit fuel; structural recursion, so the
kernel can evaluate it.  `gcdF f m n = Nat.gcd m n` whenever `m ≤ f`. -/
def gcdF : ℕ → ℕ → ℕ → ℕ
  | 0, _, n => n
  | _ + 1, 0, n => n
  | f + 1, m + 1, n => gcdF f (n % (m + 1)) (m + 1)

theorem gcdF_eq : ∀ (f m n : ℕ), m ≤ f → gcdF f m n = Nat.gcd m n := by
  intro f
  induction f with
  | zero =>
    intro m n h
    interval_cases m
    simp [gcdF]
  | succ f ih =>
    intro m n h
    match m with
    | 0 => simp [gcdF]
    | m + 1 =>
      rw [gcdF, ih _ _ (Nat.le_of_lt_succ (Nat.lt_of_lt_of_le (Nat.mod_lt _ (Nat.succ_pos m)) h)),
        Nat.gcd_succ]

/-- Reduced fraction `n / d` for a positive denominator, built with `gcdF`
so that it evaluates in the kernel. -/
def qmk (n : ℤ) (d : ℕ) (hd : d ≠ 0) : ℚ :=
  Rat.mk' (n / (gcdF n.natAbs n.natAbs d : ℕ)) (d / gcdF n.natAbs n.natAbs d)
    (by
      rw [gcdF_eq _ _ _ (Nat.le_refl _)]
      exact Nat.ne_of_gt (Nat.div_pos (Nat.le_of_dvd (Nat.pos_of_ne_zero hd)
        (Nat.gcd_dvd_right _ _)) (Nat.pos_of_ne_zero (Nat.gcd_ne_zero_right hd))))
    (by
      rw [gcdF_eq _ _ _ (Nat.le_refl _)]
      have hg : (Nat.gcd n.natAbs d : ℤ) ∣ n :=
        Int.dvd_natAbs.mp (Int.natCast_dvd_natCast.mpr (Nat.gcd_dvd_left _ _))
      rw [Int.natAbs_ediv _ _ hg, Int.natAbs_ofNat]
      exact Nat.coprime_div_gcd_div_gcd
        (Nat.pos_of_ne_zero (Nat.gcd_ne_zero_right hd)))

/-- Kernel-evaluable `(n : ℚ) / (d : ℚ)` on integers (`0` when `d = 0`,
matching the division-by-zero convention of `ℚ`). -/
def qmkInt (n d : ℤ) : ℚ :=
  if hd : d = 0 then 0
  else if hneg : d < 0 then qmk (-n) (-d).toNat (by omega)
  else qmk n d.toNat (by omega)

/-- Kernel-evaluable addition on `ℚ`; `qAdd_eq` below shows it is `+`. -/
def qAdd (a b : ℚ) : ℚ :=
  qmkInt (a.num * b.den + b.num * a.den) (a.den * b.den)

/-- Kernel-evaluable multiplication on `ℚ`. -/
def qMul (a b : ℚ) : ℚ :=
  qmkInt (a.num * b.num) (a.den * b.den)

/-- Kernel-evaluable subtraction on `ℚ`. -/
def qSub (a b : ℚ) : ℚ :=
  qmkInt (a.num * b.den - b.num * a.den) (a.den * b.den)

/-- Kernel-evaluable division on `ℚ` (`0` when `b = 0`, as for `/` on `ℚ`). -/
def qDiv (a b : ℚ) : ℚ :=
  qmkInt (a.num * b.den) (a.den * b.num)

/-- Kernel-evaluable sum of a list of rationals (pandas `.sum()`). -/
def qSum (l : List ℚ) : ℚ :=
  l.foldr qAdd 0

theorem qmk_eq (n : ℤ) (d : ℕ) (hd : d ≠ 0) : qmk n d hd = (n : ℚ) / (d : ℚ) := by
  have hg0 : Nat.gcd n.natAbs d ≠ 0 := Nat.gcd_ne_zero_right hd
  have hgq : ((Nat.gcd n.natAbs d : ℕ) : ℚ) ≠ 0 := Nat.cast_ne_zero.mpr hg0
  have hgn : (Nat.gcd n.natAbs d : ℤ) ∣ n :=
    Int.dvd_natAbs.mp (Int.natCast_dvd_natCast.mpr (Nat.gcd_dvd_left _ _))
  have hgd : Nat.gcd n.natAbs d ∣ d := Nat.gcd_dvd_right _ _
  rw [qmk, Rat.mk'_eq_divInt, Rat.divInt_eq_div, gcdF_eq _ _ _ (Nat.le_refl _),
    Int.cast_natCast, Int.cast_div_charZero hgn, Rat.natCast_div _ _ hgd,
    Int.cast_natCast, div_div_div_cancel_right₀ hgq]

theorem qmkInt_eq (n d : ℤ) : qmkInt n d = (n : ℚ) / (d : ℚ) := by
  rw [qmkInt]
  split
  · rename_i hd
    simp [hd]
  · rename_i hd
    split
    · rename_i hneg
      have h1 : (((-d).toNat : ℕ) : ℚ) = ((-d : ℤ) : ℚ) := by
        rw [← Int.cast_natCast]
        exact congrArg (fun z : ℤ => (z : ℚ)) (Int.toNat_of_nonneg (by omega))
      rw [qmk_eq, h1, Int.cast_neg, Int.cast_neg, neg_div_neg_eq]
    · rename_i hpos
      have h1 : ((d.toNat : ℕ) : ℚ) = ((d : ℤ) : ℚ) := by
        rw [← Int.cast_natCast]
        exact congrArg (fun z : ℤ => (z : ℚ)) (Int.toNat_of_nonneg (by omega))
      rw [qmk_eq, h1]

theorem qAdd_eq (a b : ℚ) : qAdd a b = a + b := by
  have had : (a.den : ℤ) ≠ 0 := Int.natCast_ne_zero.mpr a.den_nz
  have hbd : (b.den : ℤ) ≠ 0 := Int.natCast_ne_zero.mpr b.den_nz
  rw [qAdd, qmkInt_eq, ← Rat.divInt_eq_div]
  conv_rhs => rw [← Rat.num_divInt_den a, ← Rat.num_divInt_den b]
  rw [Rat.divInt_add_divInt _ _ had hbd]

theorem qSub_eq (a b : ℚ) : qSub a b = a - b := by
  have had : (a.den : ℤ) ≠ 0 := Int.natCast_ne_zero.mpr a.den_nz
  have hbd : (b.den : ℤ) ≠ 0 := Int.natCast_ne_zero.mpr b.den_nz
  rw [qSub, qmkInt_eq, ← Rat.divInt_eq_div]
  conv_rhs => rw [← Rat.num_divInt_den a, ← Rat.num_divInt_den b]
  rw [Rat.divInt_sub_divInt _ _ had hbd]

theorem qMul_eq (a b : ℚ) : qMul a b = a * b := by
  rw [qMul, qmkInt_eq, ← Rat.divInt_eq_div]
  conv_rhs => rw [← Rat.num_divInt_den a, ← Rat.num_divInt_den b]
  rw [Rat.divInt_mul_divInt']

theorem qDiv_eq (a b : ℚ) : qDiv a b = a / b := by
  rw [qDiv, qmkInt_eq, ← Rat.divInt_eq_div]
  conv_rhs => rw [← Rat.num_divInt_den a, ← Rat.num_divInt_den b]
  rw [Rat.divInt_div_divInt]

theorem qSum_eq (l : List ℚ) : qSum l = l.sum := by
  induction l with
  | nil => rfl
  | cons a l ih => rw [qSum, List.foldr_cons, ← qSum, ih, qAdd_eq, List.sum_cons]

/-- A table cell: either a numeric value or an uninterpreted string.
Floating-point values of the source are modelled as exact rationals. -/
inductive Cell where
  | num (q : ℚ)
  | str (s : String)
deriving DecidableEq, Repr

/-- Python `str.strip()`: drop leading and trailing whitespace.  Written on
the character list so that it evaluates inside the kernel. -/
def strip (s : String) : String :=
  ⟨((s.data.dropWhile Char.isWhitespace).reverse.dropWhile Char.isWhitespace).reverse⟩

/-- Python `str.lower()`, character by character. -/
def lowerStr (s : String) : String :=
  ⟨s.data.map Char.toLower⟩

/-- Value of the digit list `cs` read in base 10 (used by the numeric parser). -/
def digitsVal (cs : List Char) : ℕ :=
  cs.foldl (fun n c => 10 * n + (c.toNat - 48)) 0

/-- Model of the numeric parse performed by `pd.to_numeric(errors="coerce")`
on a single string cell: optional surrounding whitespace, optional sign,
integer digits, optional fractional part.  Returns `none` when the string is
not numeric (scientific notation is not modelled; no claim depends on it). -/
def parseNumString (s : String) : Option ℚ :=
  let t := (strip s).toList
  let neg : Bool := match t with
    | '-' :: _ => true
    | _ => false
  let ds : List Char := match t with
    | '-' :: rest => rest
    | '+' :: rest => rest
    | _ => t
  let ip := ds.takeWhile Char.isDigit
  let rest := ds.dropWhile Char.isDigit
  let signed : ℤ → ℤ := fun v => if neg then -v else v
  match rest with
  | [] => if ip.isEmpty then none else some (qmkInt (signed (digitsVal ip)) 1)
  | '.' :: fp =>
      if fp.all Char.isDigit && !(ip.isEmpty && fp.isEmpty) then
        some (qmkInt (signed (digitsVal ip * 10 ^ fp.length + digitsVal fp)) (10 ^ fp.length))
      else none
  | _ => none

/-- Coercion of one cell, as `pd.to_numeric(df[c], errors="coerce").fillna(0)`: numeric
cells stay, string cells are parsed, and a failed parse becomes `0`. -/
def coerceCell : Cell → Cell
  | .num q => .num q
  | .str s => .num ((parseNumString s).getD 0)

/-- Numeric reading of a cell.  Inside `compute_ipmp` it is only applied to
columns that have already gone through `coerceCell`, where every cell is
`Cell.num`. -/
def cellQ : Cell → ℚ
  | .num q => q
  | .str _ => 0

/-- A DataFrame: an ordered list of named columns.  Pandas column selection
`df[c]` resolves a label to its (first) column, which is how `colCells`
reads below. -/
structure DataFrame where
  cols : List (String × List Cell)
deriving DecidableEq, Repr

instance {ε α : Type} [DecidableEq ε] [DecidableEq α] : DecidableEq (Except ε α)
  | .error e, .error f =>
      if h : e = f then isTrue (by rw [h]) else isFalse (by simp [h])
  | .ok x, .ok y =>
      if h : x = y then isTrue (by rw [h]) else isFalse (by simp [h])
  | .error _, .ok _ => isFalse (by simp)
  | .ok _, .error _ => isFalse (by simp)

/-- Headers of the table (`df.columns` of the source). -/
def DataFrame.headers (df : DataFrame) : List String :=
  df.cols.map Prod.fst

/-- Cells of the column labelled `c` (empty when the label is absent). -/
def DataFrame.colCells (df : DataFrame) (c : String) : List Cell :=
  ((df.cols.find? (fun p => p.1 == c)).map Prod.snd).getD []

/-- Numeric view of column `c`. -/
def DataFrame.colQ (df : DataFrame) (c : String) : List ℚ :=
  (df.colCells c).map cellQ

/-- Column assignment `df[c] = cells`: replace the column labelled `c`, or append it when
absent (pandas assignment semantics). -/
def DataFrame.setCol (df : DataFrame) (c : String) (cells : List Cell) : DataFrame :=
  if df.headers.contains c then
    ⟨df.cols.map (fun p => if p.1 == c then (p.1, cells) else p)⟩
  else
    ⟨df.cols ++ [(c, cells)]⟩

/-- Column assignment `df[c] = vals` for a numeric series. -/
def setColNum (df : DataFrame) (c : String) (vals : List ℚ) : DataFrame :=
  df.setCol c (vals.map Cell.num)

/-- The `EXPECTED_COLUMNS` table of the source: canonical column name to its ordered
alias list.  (English canonical names of the spec: `Mata Pelajaran` =
Subject, `Bil. Daftar` = Registered, `Bil. Ambil` = Taken, `% L PPC` =
PassRatePPC, `% L OTR2` = PassRateOTR2.) -/
def EXPECTED_COLUMNS : List (String × List String) :=
  [ ("Mata Pelajaran", ["Mata Pelajaran", "Subjek", "Subject"]),
    ("Bil. Daftar", ["Bil. Daftar", "Daftar", "Bil Daftar", "Registered"]),
    ("Bil. Ambil", ["Bil. Ambil", "Ambil", "Bil Ambil", "Taken"]),
    ("% L PPC", ["% L PPC", "PPC"]),
    ("% L OTR2", ["% L OTR2", "OTR2"]) ]

/-- Normalized key `col.strip().lower()` on which headers and aliases are compared. -/
def normKey (s : String) : String :=
  lowerStr (strip s)

/-- The comparison `col.strip().lower() == opt.strip().lower()` of the source. -/
def matchKey (col opt : String) : Bool :=
  normKey col == normKey opt

/-- Dict assignment `mapping[col] = target` on a Python dict kept as an insertion-ordered
association list: overwrite the existing binding or append a new one. -/
def dictInsert (m : List (String × String)) (k v : String) : List (String × String) :=
  if m.any (fun p => p.1 == k) then
    m.map (fun p => if p.1 == k then (p.1, v) else p)
  else
    m ++ [(k, v)]

/-- Dict lookup `mapping.get(k)`. -/
def dictLookup (m : List (String × String)) (k : String) : Option String :=
  (m.find? (fun p => p.1 == k)).map Prod.snd

/-- The rename map of `standardize_columns`: for each canonical `target`, for
each alias `opt` in order, the first raw header matching `opt` (the inner
`for col ... break` loop) is bound to `target`.  The `break` of the source
leaves only the alias loop's inner scan, so later aliases keep contributing
entries. -/
def buildMapping (cols : List String) : List (String × String) :=
  EXPECTED_COLUMNS.foldl
    (fun m tp =>
      tp.2.foldl
        (fun m opt =>
          match cols.find? (fun col => matchKey col opt) with
          | some col => dictInsert m col tp.1
          | none => m)
        m)
    []

/-- The function `standardize_columns`: build the rename map and apply it to every column
label (`df.rename(columns=mapping)`); data is untouched. -/
def standardize_columns (df : DataFrame) : DataFrame :=
  ⟨df.cols.map (fun p => ((dictLookup (buildMapping df.headers) p.1).getD p.1, p.2))⟩

example : standardize_columns ⟨[("Subjek", []), ("Subject", [])]⟩ =
    ⟨[("Mata Pelajaran", []), ("Mata Pelajaran", [])]⟩ := by decide

example : standardize_columns ⟨[(" Subjek", []), ("SUBJEK", [])]⟩ =
    ⟨[("Mata Pelajaran", []), ("SUBJEK", [])]⟩ := by decide

example : parseNumString "42" = some 42 := by decide

example : parseNumString "abc" = none := by decide

/-!
### The Index Calculator (`compute_ipmp`)
-/

/-- A single-quote character, used to spell the source's error message. -/
def squote : String := (Char.ofNat 39).toString

/-- The `needed` list of `compute_ipmp`: required canonical columns, in the
order they are checked. -/
def needed : List String :=
  ["Mata Pelajaran", "Bil. Ambil", "% L PPC", "% L OTR2"]

/-- Columns coerced to numbers by `compute_ipmp`, in source order. -/
def numericCols : List String :=
  ["Bil. Daftar", "Bil. Ambil", "% L PPC", "% L OTR2"]

/-- The `cols` projection list of `compute_ipmp` (its final column order). -/
def colsOrder : List String :=
  ["Mata Pelajaran", "Bil. Daftar", "Bil. Ambil", "% L PPC", "% L OTR2",
   "Beza Peratus (PPC - OTR2)", "Pemberat", "IPMP", "Ranking"]

/-- The first column of `needed` absent from the table: the source's
`for c in needed: if c not in df.columns: raise ...` loop raises on exactly
this column. -/
def firstMissing (df : DataFrame) : Option String :=
  needed.find? (fun c => !(df.headers.contains c))

/-- The message of the `ValueError` raised on a missing column
(`f"Kolum '{c}' tiada dalam data."`). -/
def errMsg (c : String) : String :=
  "Kolum " ++ squote ++ c ++ squote ++ " tiada dalam data."

/-- One iteration of the numeric-coercion loop:
`if c in df.columns: df[c] = pd.to_numeric(df[c], errors="coerce").fillna(0)`. -/
def coerceStep (d : DataFrame) (c : String) : DataFrame :=
  if d.headers.contains c then d.setCol c ((d.colCells c).map coerceCell) else d

/-- Numeric coercion pass: the loop `for c in [...]` of the source, one
`coerceStep` per column of `numericCols`. -/
def coerceAll (df : DataFrame) : DataFrame :=
  numericCols.foldl coerceStep df

/-- The derived series `df["% L PPC"] - df["% L OTR2"]` (pandas aligns the
two columns positionally here, the frame having a default range index).
`df1` is the coerced frame; writing the derived columns does not change the
source columns read below, since all these labels differ. -/
def bezaOf (df1 : DataFrame) : List ℚ :=
  List.zipWith qSub (df1.colQ "% L PPC") (df1.colQ "% L OTR2")

/-- The scalar `total_ambil = df["Bil. Ambil"].sum()`. -/
def totalOf (df1 : DataFrame) : ℚ :=
  qSum (df1.colQ "Bil. Ambil")

/-- The series `np.where(total_ambil > 0, df["Bil. Ambil"] / total_ambil, 0.0)`. -/
def pemberatOf (df1 : DataFrame) : List ℚ :=
  (df1.colQ "Bil. Ambil").map
    (fun t => if 0 < totalOf df1 then qDiv t (totalOf df1) else 0)

/-- The series `df["Beza Peratus (PPC - OTR2)"] * df["Pemberat"]`. -/
def ipmpOf (df1 : DataFrame) : List ℚ :=
  List.zipWith qMul (bezaOf df1) (pemberatOf df1)

/-- The series `df["IPMP"].rank(method="min", ascending=False).astype(int)`:
with "min" (competition) ranking on the descending order, the rank of entry
`x` is one more than the number of entries strictly greater than `x`. -/
def rankOf (df1 : DataFrame) : List ℚ :=
  (ipmpOf df1).map
    (fun x => ((1 + (ipmpOf df1).countP (fun y => decide (x < y)) : ℕ) : ℚ))

/-- The four derived-column assignments of `compute_ipmp`, in source order. -/
def derivedDf (df1 : DataFrame) : DataFrame :=
  setColNum
    (setColNum
      (setColNum
        (setColNum df1 "Beza Peratus (PPC - OTR2)" (bezaOf df1))
        "Pemberat" (pemberatOf df1))
      "IPMP" (ipmpOf df1))
    "Ranking" (rankOf df1)

/-- The projection `df[[c for c in cols if c in df.columns]]`. -/
def projectDf (df5 : DataFrame) : DataFrame :=
  ⟨(colsOrder.filter (fun c => df5.headers.contains c)).map
    (fun c => (c, df5.colCells c))⟩

/-- Row comparison used to model `df.sort_values("Ranking")`: ascending by
the Ranking value, with the original position as tie-break (a stable sort;
pandas does not fix the relative order of tied rows, and every claim below
depends only on the values being ordered). -/
def idxLe (r : List ℚ) (i j : ℕ) : Prop :=
  r.getD i 0 < r.getD j 0 ∨ (r.getD i 0 = r.getD j 0 ∧ i ≤ j)

instance (r : List ℚ) : DecidableRel (idxLe r) := fun i j => by
  unfold idxLe
  infer_instance

instance (r : List ℚ) : IsTotal ℕ (idxLe r) := by
  constructor
  intro i j
  rcases lt_trichotomy (r.getD i 0) (r.getD j 0) with h | h | h
  · exact Or.inl (Or.inl h)
  · rcases Nat.le_total i j with h2 | h2
    · exact Or.inl (Or.inr ⟨h, h2⟩)
    · exact Or.inr (Or.inr ⟨h.symm, h2⟩)
  · exact Or.inr (Or.inl h)

instance (r : List ℚ) : IsTrans ℕ (idxLe r) := by
  constructor
  intro i j k hij hjk
  rcases hij with h1 | ⟨h1, h1'⟩
  · rcases hjk with h2 | ⟨h2, _⟩
    · exact Or.inl (h1.trans h2)
    · exact Or.inl (h2 ▸ h1)
  · rcases hjk with h2 | ⟨h2, h2'⟩
    · exact Or.inl (h1 ▸ h2)
    · exact Or.inr ⟨h1.trans h2, h1'.trans h2'⟩

/-- Row order produced by `df.sort_values("Ranking")`: the row indices sorted
ascending by their Ranking value. -/
def sortOrder (df : DataFrame) : List ℕ :=
  List.insertionSort (idxLe (df.colQ "Ranking"))
    (List.range (df.colQ "Ranking").length)

/-- Application of the sorted row order to every column of the frame. -/
def sortByRanking (df : DataFrame) : DataFrame :=
  ⟨df.cols.map (fun p => (p.1, (sortOrder df).map (fun i => p.2.getD i (Cell.num 0))))⟩

/-- The function `compute_ipmp`: check required columns, coerce numerics,
derive the four computed columns, project to the fixed column order, and
sort by Ranking.  The raised `ValueError` is modelled by `Except.error`. -/
def compute_ipmp (df : DataFrame) : Except String DataFrame :=
  match firstMissing df with
  | some c => Except.error (errMsg c)
  | none => Except.ok (sortByRanking (projectDf (derivedDf (coerceAll df))))

/-- Total of the coerced Taken column of a raw table (the `total_ambil` of
the run of `compute_ipmp` on it). -/
def totalTaken (df : DataFrame) : ℚ :=
  totalOf (coerceAll df)

/-!
### Helper definitions for the proofs
-/

/-- The canonical column names (keys of `EXPECTED_COLUMNS`). -/
def canonicalNames : List String :=
  EXPECTED_COLUMNS.map Prod.fst

/-- The alias table flattened to `(alias, canonical)` pairs in scan order. -/
def aliasPairs : List (String × String) :=
  EXPECTED_COLUMNS.foldl (fun acc tp => acc ++ tp.2.map (fun o => (o, tp.1))) []

/-- The rename-map construction as a single fold over `(alias, canonical)`
pairs; `buildMapping_eq_foldPairs` shows `buildMapping` is this fold over
`aliasPairs`. -/
def foldPairs (cols : List String) (ps : List (String × String))
    (m : List (String × String)) : List (String × String) :=
  ps.foldl
    (fun m p =>
      match cols.find? (fun col => matchKey col p.1) with
      | some col => dictInsert m col p.2
      | none => m)
    m

/-- Names of the four derived columns added by `compute_ipmp`. -/
def derivedNames : List String :=
  ["Beza Peratus (PPC - OTR2)", "Pemberat", "IPMP", "Ranking"]

/-- Well-formedness of a table: every column has the same number of rows. -/
def WFn (df : DataFrame) (n : ℕ) : Prop :=
  ∀ p ∈ df.cols, p.2.length = n

instance (df : DataFrame) (n : ℕ) : Decidable (WFn df n) :=
  decidable_of_iff (∀ p ∈ df.cols, p.2.length = n) Iff.rfl

/-- The frame reaching the sort step of `compute_ipmp`. -/
def finalFrame (df : DataFrame) : DataFrame :=
  projectDf (derivedDf (coerceAll df))

/-!
### Lemmas: dictionaries and the rename map
-/

theorem buildMapping_eq_foldPairs (cols : List String) :
    buildMapping cols = foldPairs cols aliasPairs [] := rfl

theorem fst_comp_replace {β : Type} (k : String) (v : β) (c : String) :
    ∀ p : String × β,
      ((fun p : String × β => p.1 == c) ∘
        (fun p : String × β => if p.1 == k then (p.1, v) else p)) p =
      (p.1 == c) := by
  intro p
  by_cases h : p.1 = k
  · simp [h]
  · simp [h]

theorem dictLookup_insert (m : List (String × String)) (k v c : String) :
    dictLookup (dictInsert m k v) c = if c = k then some v else dictLookup m c := by
  rw [dictInsert, dictLookup]
  split
  · rename_i hany
    rw [List.find?_map, funext (fst_comp_replace k v c)]
    rcases hf : m.find? (fun p => p.1 == c) with _ | r
    · have hck : ¬c = k := by
        intro hck
        subst hck
        rcases List.any_eq_true.mp hany with ⟨q, hq, hqc⟩
        rw [List.find?_eq_none] at hf
        exact hf q hq hqc
      rw [if_neg hck, dictLookup, hf]
      simp
    · have hr := List.find?_some hf
      simp only [beq_iff_eq] at hr
      by_cases hck : c = k
      · subst hck
        rw [if_pos rfl, hf]
        simp [hr]
      · rw [if_neg hck, dictLookup, hf]
        have hrk : ¬r.1 = k := by
          rw [hr]
          exact hck
        simp [hrk]
  · rename_i hany
    rw [List.find?_append]
    by_cases hck : c = k
    · subst hck
      have hf : m.find? (fun p => p.1 == c) = none := by
        rw [List.find?_eq_none]
        intro p hp hpc
        exact hany (List.any_eq_true.mpr ⟨p, hp, hpc⟩)
      simp [hf, List.find?]
    · rw [if_neg hck, dictLookup]
      rcases hf : m.find? (fun p => p.1 == c) with _ | r
      · have hkc : (((k, v)).1 == c) = false := by
          simp only [beq_eq_false_iff_ne, ne_eq]
          exact fun h => hck h.symm
        simp [hf, List.find?, hkc]
      · simp [hf]

theorem dictInsert_mem {m : List (String × String)} {k v : String} {p : String × String}
    (h : p ∈ dictInsert m k v) : p = (k, v) ∨ p ∈ m := by
  rw [dictInsert] at h
  split at h
  · rcases List.mem_map.mp h with ⟨q, hq, hqe⟩
    by_cases hk : q.1 = k
    · rw [if_pos (by simpa using hk)] at hqe
      left
      rw [← hqe, hk]
    · rw [if_neg (by simpa using hk)] at hqe
      right
      rw [← hqe]
      exact hq
  · rcases List.mem_append.mp h with h | h
    · right
      exact h
    · left
      simpa using h

theorem dictLookup_mem {m : List (String × String)} {c t : String}
    (h : dictLookup m c = some t) : (c, t) ∈ m := by
  rw [dictLookup] at h
  rcases hf : m.find? (fun p => p.1 == c) with _ | r
  · rw [hf] at h
    exact absurd h (by simp)
  · rw [hf] at h
    have hr := List.find?_some hf
    simp only [beq_iff_eq] at hr
    have hmem := List.mem_of_find?_eq_some hf
    rcases r with ⟨r1, r2⟩
    simp only at hr
    simp at h
    rw [← hr, ← h]
    exact hmem

theorem foldPairs_lookup_preserve (cols : List String) :
    ∀ (ps : List (String × String)) (m : List (String × String)) (col v : String),
      dictLookup m col = some v →
      (∀ q ∈ ps, ∀ col', cols.find? (fun c => matchKey c q.1) = some col' →
        col' = col → q.2 = v) →
      dictLookup (foldPairs cols ps m) col = some v := by
  intro ps
  induction ps with
  | nil =>
    intro m col v hm _
    exact hm
  | cons q ps ih =>
    intro m col v hm hq
    simp only [foldPairs, List.foldl_cons]
    rcases hfind : cols.find? (fun c => matchKey c q.1) with _ | col'
    · simp only [hfind]
      exact ih m col v hm (fun r hr => hq r (List.mem_cons_of_mem _ hr))
    · simp only [hfind]
      by_cases hcol : col' = col
      · have hv : q.2 = v := hq q (List.mem_cons_self _ _) col' hfind hcol
        refine ih _ col v ?_ (fun r hr => hq r (List.mem_cons_of_mem _ hr))
        rw [dictLookup_insert, if_pos hcol.symm, hv]
      · refine ih _ col v ?_ (fun r hr => hq r (List.mem_cons_of_mem _ hr))
        rw [dictLookup_insert, if_neg (fun h => hcol h.symm)]
        exact hm

theorem foldPairs_lookup (cols : List String) :
    ∀ (ps : List (String × String)) (m : List (String × String))
      (opt target col : String),
      (opt, target) ∈ ps →
      cols.find? (fun c => matchKey c opt) = some col →
      (∀ q ∈ ps, ∀ col', cols.find? (fun c => matchKey c q.1) = some col' →
        col' = col → q.2 = target) →
      dictLookup (foldPairs cols ps m) col = some target := by
  intro ps
  induction ps with
  | nil =>
    intro m opt target col hmem
    exact absurd hmem (List.not_mem_nil _)
  | cons q ps ih =>
    intro m opt target col hmem hfind hq
    rcases List.mem_cons.mp hmem with rfl | hmem
    · simp only [foldPairs, List.foldl_cons, hfind]
      refine foldPairs_lookup_preserve cols ps _ col target ?_
        (fun r hr => hq r (List.mem_cons_of_mem _ hr))
      rw [dictLookup_insert, if_pos rfl]
    · simp only [foldPairs, List.foldl_cons]
      rcases hfind' : cols.find? (fun c => matchKey c q.1) with _ | col'
      · simp only [hfind']
        exact ih m opt target col hmem hfind
          (fun r hr => hq r (List.mem_cons_of_mem _ hr))
      · simp only [hfind']
        exact ih _ opt target col hmem hfind
          (fun r hr => hq r (List.mem_cons_of_mem _ hr))

theorem foldPairs_mem (cols : List String) :
    ∀ (ps : List (String × String)) (m : List (String × String))
      (P : String × String → Prop),
      (∀ e ∈ m, P e) →
      (∀ q ∈ ps, ∀ col, cols.find? (fun c => matchKey c q.1) = some col → P (col, q.2)) →
      ∀ e ∈ foldPairs cols ps m, P e := by
  intro ps
  induction ps with
  | nil =>
    intro m P hm _
    exact hm
  | cons q ps ih =>
    intro m P hm hq
    simp only [foldPairs, List.foldl_cons]
    rcases hfind : cols.find? (fun c => matchKey c q.1) with _ | col
    · simp only [hfind]
      exact ih m P hm (fun r hr => hq r (List.mem_cons_of_mem _ hr))
    · simp only [hfind]
      refine ih _ P ?_ (fun r hr => hq r (List.mem_cons_of_mem _ hr))
      intro e he
      rcases dictInsert_mem he with rfl | he
      · exact hq q (List.mem_cons_self _ _) col hfind
      · exact hm e he

theorem aliasPairs_compat :
    ∀ p ∈ aliasPairs, ∀ q ∈ aliasPairs, normKey p.1 = normKey q.1 → p.2 = q.2 := by
  decide

theorem canonical_compat :
    ∀ c ∈ canonicalNames, ∀ q ∈ aliasPairs, matchKey c q.1 = true → q.2 = c := by
  decide

theorem mem_aliasPairs {t : String} {os : List String}
    (ht : (t, os) ∈ EXPECTED_COLUMNS) {o : String} (ho : o ∈ os) : (o, t) ∈ aliasPairs := by
  fin_cases ht <;> fin_cases ho <;> decide

theorem buildMapping_lookup (cols : List String) (target : String) (opts : List String)
    (opt col : String) (h1 : (target, opts) ∈ EXPECTED_COLUMNS) (h2 : opt ∈ opts)
    (h3 : cols.find? (fun c => matchKey c opt) = some col) :
    dictLookup (buildMapping cols) col = some target := by
  rw [buildMapping_eq_foldPairs]
  refine foldPairs_lookup cols aliasPairs [] opt target col (mem_aliasPairs h1 h2) h3 ?_
  intro q hq col' hq' hcol
  subst hcol
  have hm1 := List.find?_some h3
  have hm2 := List.find?_some hq'
  simp only [matchKey, beq_iff_eq] at hm1 hm2
  have hkey : normKey q.1 = normKey opt := by
    rw [← hm2, hm1]
  exact aliasPairs_compat q hq (opt, target) (mem_aliasPairs h1 h2) hkey

theorem buildMapping_entry {cols : List String} {e : String × String}
    (he : e ∈ buildMapping cols) :
    e.1 ∈ cols ∧ ∃ q ∈ aliasPairs, matchKey e.1 q.1 = true ∧ e.2 = q.2 := by
  rw [buildMapping_eq_foldPairs] at he
  refine foldPairs_mem cols aliasPairs []
    (fun e => e.1 ∈ cols ∧ ∃ q ∈ aliasPairs, matchKey e.1 q.1 = true ∧ e.2 = q.2)
    (fun e he => absurd he (List.not_mem_nil _)) ?_ e he
  intro q hq col hfind
  have hmk := List.find?_some hfind
  exact ⟨List.mem_of_find?_eq_some hfind, q, hq, hmk, rfl⟩

theorem standardize_headers (df : DataFrame) :
    (standardize_columns df).headers =
      df.headers.map (fun h => (dictLookup (buildMapping df.headers) h).getD h) := by
  rw [standardize_columns, DataFrame.headers, DataFrame.headers, List.map_map, List.map_map]
  rfl

/-!
### Claims C1 and C8: the Schema Normalizer
-/

/-- C1, counterexample: the claim says that after the first alias of a
canonical column matches some raw header, scanning of the remaining aliases
stops, so at most one raw header is ever renamed to a given canonical name.
In the source the `break` leaves only the innermost loop (the scan over raw
headers), not the alias loop: on the table with headers
`["Subjek", "Subject"]` both headers match aliases of `Mata Pelajaran` and
both are renamed, so the canonical name appears twice. -/
theorem C1_counterexample :
    (standardize_columns ⟨[("Subjek", []), ("Subject", [])]⟩).headers =
      ["Mata Pelajaran", "Mata Pelajaran"] ∧
    ¬((standardize_columns ⟨[("Subjek", []), ("Subject", [])]⟩).headers.count
        "Mata Pelajaran" ≤ 1) := by
  decide

/-- C1 (amended): for every canonical column, every alias of it is scanned
in order; for each alias, the first raw header matching it (case-insensitively,
after trimming) is recorded as renaming to the canonical name.  Scanning does
not stop after a successful alias, so each matching alias contributes a
rename and several raw headers may be renamed to the same canonical name. -/
theorem C1_per_alias_first_match (df : DataFrame) (target : String)
    (opts : List String) (opt col : String)
    (h1 : (target, opts) ∈ EXPECTED_COLUMNS) (h2 : opt ∈ opts)
    (h3 : df.headers.find? (fun c => matchKey c opt) = some col) :
    dictLookup (buildMapping df.headers) col = some target ∧
    (standardize_columns df).headers =
      df.headers.map (fun h => (dictLookup (buildMapping df.headers) h).getD h) ∧
    target ∈ (standardize_columns df).headers := by
  have hl := buildMapping_lookup df.headers target opts opt col h1 h2 h3
  refine ⟨hl, standardize_headers df, ?_⟩
  rw [standardize_headers]
  refine List.mem_map.mpr ⟨col, List.mem_of_find?_eq_some h3, ?_⟩
  rw [hl]
  rfl

/-- Witness for `C1_per_alias_first_match` at a concrete table whose single
header `"subjek "` matches the second alias of `Mata Pelajaran`. -/
theorem C1_per_alias_first_match_witness :
    (("Mata Pelajaran", ["Mata Pelajaran", "Subjek", "Subject"]) ∈ EXPECTED_COLUMNS) ∧
    ("Subjek" ∈ ["Mata Pelajaran", "Subjek", "Subject"]) ∧
    ((DataFrame.mk [("subjek ", [])]).headers.find? (fun c => matchKey c "Subjek") =
      some "subjek ") ∧
    (dictLookup (buildMapping (DataFrame.mk [("subjek ", [])]).headers) "subjek " =
      some "Mata Pelajaran" ∧
    (standardize_columns (DataFrame.mk [("subjek ", [])])).headers =
      (DataFrame.mk [("subjek ", [])]).headers.map
        (fun h => (dictLookup (buildMapping (DataFrame.mk [("subjek ", [])]).headers) h).getD h) ∧
    "Mata Pelajaran" ∈ (standardize_columns (DataFrame.mk [("subjek ", [])])).headers) :=
  ⟨by decide, by decide, by decide,
    C1_per_alias_first_match (DataFrame.mk [("subjek ", [])]) "Mata Pelajaran"
      ["Mata Pelajaran", "Subjek", "Subject"] "Subjek" "subjek "
      (by decide) (by decide) (by decide)⟩

/-- C8, counterexample: `standardize_columns` is not idempotent.  On the
table with headers `[" Subjek", "SUBJEK"]` (two distinct raw headers with the
same normalized key), the first pass renames only the first match of the
alias `"Subjek"`, leaving `"SUBJEK"` untouched; a second pass then renames
`"SUBJEK"` as well, so normalizing twice differs from normalizing once. -/
theorem C8_counterexample :
    standardize_columns (standardize_columns ⟨[(" Subjek", []), ("SUBJEK", [])]⟩) ≠
      standardize_columns ⟨[(" Subjek", []), ("SUBJEK", [])]⟩ ∧
    (standardize_columns ⟨[(" Subjek", []), ("SUBJEK", [])]⟩).headers =
      ["Mata Pelajaran", "SUBJEK"] ∧
    (standardize_columns (standardize_columns ⟨[(" Subjek", []), ("SUBJEK", [])]⟩)).headers =
      ["Mata Pelajaran", "Mata Pelajaran"] := by
  decide

/-- C8 (amended): a table in which every header either is already a
canonical name or matches no alias at all is a fixed point of
`standardize_columns`; in particular headers matching no alias pass through
unchanged rather than being dropped.  (Full idempotence fails: see the
counterexample, where two distinct raw headers share one alias.) -/
theorem C8_fixed_point (df : DataFrame)
    (h : ∀ c ∈ df.headers, c ∈ canonicalNames ∨ ∀ q ∈ aliasPairs, matchKey c q.1 = false) :
    standardize_columns df = df := by
  rcases df with ⟨cols⟩
  rw [standardize_columns]
  refine congrArg DataFrame.mk ?_
  have hmap : ∀ p ∈ cols,
      ((dictLookup (buildMapping (DataFrame.mk cols).headers) p.1).getD p.1, p.2) = p := by
    intro p hp
    have hc : p.1 ∈ (DataFrame.mk cols).headers := List.mem_map_of_mem Prod.fst hp
    rcases hl : dictLookup (buildMapping (DataFrame.mk cols).headers) p.1 with _ | t
    · simp
    · have hmem := dictLookup_mem hl
      rcases buildMapping_entry hmem with ⟨_, q, hq, hmk, hqt⟩
      rcases h p.1 hc with hcan | hnone
      · have hqp : q.2 = p.1 := canonical_compat p.1 hcan q hq hmk
        have ht : t = p.1 := by
          have := hqt
          simp only at this
          rw [this, hqp]
        simp only [Option.getD_some, ht]
      · rw [hnone q hq] at hmk
        exact absurd hmk (by simp)
  calc cols.map (fun p => ((dictLookup (buildMapping (DataFrame.mk cols).headers) p.1).getD p.1, p.2))
      = cols.map id := List.map_congr_left hmap
    _ = cols := List.map_id cols

/-- Witness for `C8_fixed_point` on a concrete table with one canonical and
one unrecognized header. -/
theorem C8_fixed_point_witness :
    (∀ c ∈ (DataFrame.mk [("Mata Pelajaran", [Cell.str "x"]), ("Extra", [])]).headers,
      c ∈ canonicalNames ∨ ∀ q ∈ aliasPairs, matchKey c q.1 = false) ∧
    standardize_columns (DataFrame.mk [("Mata Pelajaran", [Cell.str "x"]), ("Extra", [])]) =
      DataFrame.mk [("Mata Pelajaran", [Cell.str "x"]), ("Extra", [])] :=
  ⟨by decide,
    C8_fixed_point (DataFrame.mk [("Mata Pelajaran", [Cell.str "x"]), ("Extra", [])])
      (by decide)⟩

/-!
### Lemmas: DataFrame operations
-/

theorem cellQ_num (q : ℚ) : cellQ (Cell.num q) = q := rfl

theorem mem_headers_iff (df : DataFrame) (c : String) :
    c ∈ df.headers ↔ ∃ p ∈ df.cols, p.1 = c := by
  rw [DataFrame.headers]
  constructor
  · intro h
    rcases List.mem_map.mp h with ⟨p, hp, he⟩
    exact ⟨p, hp, he⟩
  · intro ⟨p, hp, he⟩
    exact List.mem_map.mpr ⟨p, hp, he⟩

theorem contains_headers (df : DataFrame) (c : String) :
    df.headers.contains c = true ↔ c ∈ df.headers := List.elem_iff

theorem find?_cols_of_mem {df : DataFrame} {c : String} (h : c ∈ df.headers) :
    ∃ p, df.cols.find? (fun p => p.1 == c) = some p ∧ p.1 = c ∧ p ∈ df.cols := by
  rcases (mem_headers_iff df c).mp h with ⟨q, hq, hqc⟩
  have hs : (df.cols.find? (fun p => p.1 == c)).isSome := by
    rw [List.find?_isSome]
    exact ⟨q, hq, by simp [hqc]⟩
  rcases ho : df.cols.find? (fun p => p.1 == c) with _ | p
  · rw [ho] at hs
    simp at hs
  · have h1 := List.find?_some ho
    simp only [beq_iff_eq] at h1
    exact ⟨p, ho, h1, List.mem_of_find?_eq_some ho⟩

theorem colCells_of_find? {df : DataFrame} {c : String} {p : String × List Cell}
    (h : df.cols.find? (fun p => p.1 == c) = some p) : df.colCells c = p.2 := by
  rw [DataFrame.colCells, h]
  rfl

theorem colCells_length {df : DataFrame} {n : ℕ} {c : String}
    (h1 : WFn df n) (h2 : c ∈ df.headers) : (df.colCells c).length = n := by
  rcases find?_cols_of_mem h2 with ⟨p, hp, _, hmem⟩
  rw [colCells_of_find? hp]
  exact h1 p hmem

theorem colQ_length {df : DataFrame} {n : ℕ} {c : String}
    (h1 : WFn df n) (h2 : c ∈ df.headers) : (df.colQ c).length = n := by
  rw [DataFrame.colQ, List.length_map]
  exact colCells_length h1 h2

theorem setCol_headers (df : DataFrame) (c : String) (v : List Cell) :
    (df.setCol c v).headers =
      if df.headers.contains c then df.headers else df.headers ++ [c] := by
  rw [DataFrame.setCol]
  split
  · rename_i hcont
    rw [DataFrame.headers, DataFrame.headers, List.map_map]
    refine List.map_congr_left ?_
    intro p _
    by_cases h : p.1 = c <;> simp [h]
  · rename_i hcont
    rw [DataFrame.headers, DataFrame.headers, List.map_append]
    rfl

theorem setCol_mem_headers (df : DataFrame) (c : String) (v : List Cell) (x : String) :
    x ∈ (df.setCol c v).headers ↔ (x ∈ df.headers ∨ x = c) := by
  rw [setCol_headers]
  split
  · rename_i hcont
    constructor
    · exact Or.inl
    · intro h
      rcases h with h | rfl
      · exact h
      · exact (contains_headers df x).mp hcont
  · rw [List.mem_append]
    simp

theorem setCol_colCells_self (df : DataFrame) (c : String) (v : List Cell) :
    (df.setCol c v).colCells c = v := by
  rw [DataFrame.setCol]
  split
  · rename_i hcont
    rw [DataFrame.colCells, List.find?_map, funext (fst_comp_replace c v c)]
    rcases find?_cols_of_mem ((contains_headers df c).mp hcont) with ⟨p, hp, hpc, _⟩
    rw [hp]
    simp [hpc]
  · rename_i hcont
    rw [DataFrame.colCells, List.find?_append]
    have hf : df.cols.find? (fun p => p.1 == c) = none := by
      rw [List.find?_eq_none]
      intro p hp hpc
      simp only [beq_iff_eq] at hpc
      exact hcont ((contains_headers df c).mpr ((mem_headers_iff df c).mpr ⟨p, hp, hpc⟩))
    simp [hf, List.find?]

theorem setCol_colCells_ne (df : DataFrame) (c : String) (v : List Cell) (x : String)
    (h : x ≠ c) : (df.setCol c v).colCells x = df.colCells x := by
  rw [DataFrame.setCol]
  split
  · rw [DataFrame.colCells, List.find?_map, funext (fst_comp_replace c v x),
      DataFrame.colCells]
    rcases hf : df.cols.find? (fun p => p.1 == x) with _ | p
    · simp [hf]
    · have hp := List.find?_some hf
      simp only [beq_iff_eq] at hp
      have hpc : ¬p.1 = c := by
        rw [hp]
        exact h
      simp [hf, hpc]
  · rw [DataFrame.colCells, List.find?_append, DataFrame.colCells]
    rcases hf : df.cols.find? (fun p => p.1 == x) with _ | p
    · have hcx : (((c, v)).1 == x) = false := by
        simp only [beq_eq_false_iff_ne, ne_eq]
        exact fun hh => h hh.symm
      simp [hf, List.find?, hcx]
    · simp [hf]

theorem setCol_WF {df : DataFrame} {n : ℕ} (c : String) {v : List Cell}
    (h1 : WFn df n) (h2 : v.length = n) : WFn (df.setCol c v) n := by
  intro p hp
  rw [DataFrame.setCol] at hp
  split at hp
  · rcases List.mem_map.mp hp with ⟨q, hq, hqe⟩
    by_cases h : q.1 = c
    · rw [if_pos (by simpa using h)] at hqe
      rw [← hqe]
      exact h2
    · rw [if_neg (by simpa using h)] at hqe
      rw [← hqe]
      exact h1 q hq
  · rcases List.mem_append.mp hp with hp | hp
    · exact h1 p hp
    · rw [List.mem_singleton.mp hp]
      exact h2

theorem setColNum_colQ_self (df : DataFrame) (c : String) (vals : List ℚ) :
    (setColNum df c vals).colQ c = vals := by
  rw [setColNum, DataFrame.colQ, setCol_colCells_self, List.map_map]
  refine Eq.trans (List.map_congr_left ?_) (List.map_id vals)
  intro q _
  rfl

theorem setColNum_colCells_ne (df : DataFrame) (c : String) (vals : List ℚ) (x : String)
    (h : x ≠ c) : (setColNum df c vals).colCells x = df.colCells x :=
  setCol_colCells_ne df c _ x h

theorem setColNum_colQ_ne (df : DataFrame) (c : String) (vals : List ℚ) (x : String)
    (h : x ≠ c) : (setColNum df c vals).colQ x = df.colQ x := by
  rw [DataFrame.colQ, setColNum_colCells_ne df c vals x h, DataFrame.colQ]

theorem setColNum_mem_headers (df : DataFrame) (c : String) (vals : List ℚ) (x : String) :
    x ∈ (setColNum df c vals).headers ↔ (x ∈ df.headers ∨ x = c) :=
  setCol_mem_headers df c _ x

theorem setColNum_WF {df : DataFrame} {n : ℕ} (c : String) {vals : List ℚ}
    (h1 : WFn df n) (h2 : vals.length = n) : WFn (setColNum df c vals) n :=
  setCol_WF c h1 (by rw [List.length_map]; exact h2)

/-!
### Lemmas: the coercion pass
-/

theorem coerceStep_headers (d : DataFrame) (c : String) :
    (coerceStep d c).headers = d.headers := by
  rw [coerceStep]
  split
  · rename_i hcont
    rw [setCol_headers, if_pos hcont]
  · rfl

theorem coerceStep_colCells_ne (d : DataFrame) (c x : String) (h : x ≠ c) :
    (coerceStep d c).colCells x = d.colCells x := by
  rw [coerceStep]
  split
  · exact setCol_colCells_ne d c _ x h
  · rfl

theorem coerceStep_colCells_self (d : DataFrame) (c : String) (h : c ∈ d.headers) :
    (coerceStep d c).colCells c = (d.colCells c).map coerceCell := by
  rw [coerceStep, if_pos ((contains_headers d c).mpr h), setCol_colCells_self]

theorem coerceStep_WF {d : DataFrame} {n : ℕ} (c : String) (h1 : WFn d n) :
    WFn (coerceStep d c) n := by
  rw [coerceStep]
  split
  · rename_i hcont
    exact setCol_WF c h1
      (by rw [List.length_map]; exact colCells_length h1 ((contains_headers d c).mp hcont))
  · exact h1

theorem coerceAll_unfold (df : DataFrame) :
    coerceAll df =
      coerceStep (coerceStep (coerceStep (coerceStep df "Bil. Daftar") "Bil. Ambil")
        "% L PPC") "% L OTR2" := rfl

theorem coerceAll_headers (df : DataFrame) : (coerceAll df).headers = df.headers := by
  rw [coerceAll_unfold, coerceStep_headers, coerceStep_headers, coerceStep_headers,
    coerceStep_headers]

theorem coerceAll_WF {df : DataFrame} {n : ℕ} (h1 : WFn df n) : WFn (coerceAll df) n := by
  rw [coerceAll_unfold]
  exact coerceStep_WF _ (coerceStep_WF _ (coerceStep_WF _ (coerceStep_WF _ h1)))

theorem coerceAll_colCells {df : DataFrame} {c : String} (hc : c ∈ numericCols)
    (hm : c ∈ df.headers) :
    (coerceAll df).colCells c = (df.colCells c).map coerceCell := by
  rw [coerceAll_unfold]
  fin_cases hc
  · rw [coerceStep_colCells_ne _ _ _ (by decide), coerceStep_colCells_ne _ _ _ (by decide),
      coerceStep_colCells_ne _ _ _ (by decide), coerceStep_colCells_self _ _ hm]
  · rw [coerceStep_colCells_ne _ _ _ (by decide), coerceStep_colCells_ne _ _ _ (by decide),
      coerceStep_colCells_self _ _ (by rw [coerceStep_headers]; exact hm),
      coerceStep_colCells_ne _ _ _ (by decide)]
  · rw [coerceStep_colCells_ne _ _ _ (by decide),
      coerceStep_colCells_self _ _
        (by rw [coerceStep_headers, coerceStep_headers]; exact hm),
      coerceStep_colCells_ne _ _ _ (by decide), coerceStep_colCells_ne _ _ _ (by decide)]
  · rw [coerceStep_colCells_self _ _
        (by rw [coerceStep_headers, coerceStep_headers, coerceStep_headers]; exact hm),
      coerceStep_colCells_ne _ _ _ (by decide), coerceStep_colCells_ne _ _ _ (by decide),
      coerceStep_colCells_ne _ _ _ (by decide)]

/-!
### Lemmas: derived columns, projection, sorting
-/

theorem derivedDf_colQ_rank (df1 : DataFrame) :
    (derivedDf df1).colQ "Ranking" = rankOf df1 := by
  rw [derivedDf, setColNum_colQ_self]

theorem derivedDf_colQ_ipmp (df1 : DataFrame) :
    (derivedDf df1).colQ "IPMP" = ipmpOf df1 := by
  rw [derivedDf, setColNum_colQ_ne _ _ _ _ (by decide), setColNum_colQ_self]

theorem derivedDf_colQ_pemberat (df1 : DataFrame) :
    (derivedDf df1).colQ "Pemberat" = pemberatOf df1 := by
  rw [derivedDf, setColNum_colQ_ne _ _ _ _ (by decide),
    setColNum_colQ_ne _ _ _ _ (by decide), setColNum_colQ_self]

theorem derivedDf_colQ_beza (df1 : DataFrame) :
    (derivedDf df1).colQ "Beza Peratus (PPC - OTR2)" = bezaOf df1 := by
  rw [derivedDf, setColNum_colQ_ne _ _ _ _ (by decide),
    setColNum_colQ_ne _ _ _ _ (by decide), setColNum_colQ_ne _ _ _ _ (by decide),
    setColNum_colQ_self]

theorem derivedDf_colQ_other (df1 : DataFrame) (c : String) (h : ¬c ∈ derivedNames) :
    (derivedDf df1).colQ c = df1.colQ c := by
  simp only [derivedNames, List.mem_cons, List.not_mem_nil, or_false, not_or] at h
  rw [derivedDf, setColNum_colQ_ne _ _ _ _ h.2.2.2, setColNum_colQ_ne _ _ _ _ h.2.2.1,
    setColNum_colQ_ne _ _ _ _ h.2.1, setColNum_colQ_ne _ _ _ _ h.1]

theorem derivedDf_mem_headers (df1 : DataFrame) (c : String) :
    c ∈ (derivedDf df1).headers ↔ (c ∈ df1.headers ∨ c ∈ derivedNames) := by
  rw [derivedDf, setColNum_mem_headers, setColNum_mem_headers, setColNum_mem_headers,
    setColNum_mem_headers]
  simp only [derivedNames, List.mem_cons, List.not_mem_nil, or_false]
  tauto

theorem projectDf_headers (df5 : DataFrame) :
    (projectDf df5).headers = colsOrder.filter (fun c => df5.headers.contains c) := by
  rw [projectDf, DataFrame.headers, List.map_map]
  exact List.map_id _

theorem mk_map_colCells (f : String → List Cell) :
    ∀ (names : List String) (c : String), c ∈ names →
      (DataFrame.mk (names.map (fun x => (x, f x)))).colCells c = f c := by
  intro names
  induction names with
  | nil =>
    intro c hc
    exact absurd hc (List.not_mem_nil _)
  | cons a names ih =>
    intro c hc
    rw [List.map_cons, DataFrame.colCells, List.find?_cons]
    by_cases hac : a = c
    · simp [hac]
    · have : (((a, f a)).1 == c) = false := by
        simp only [beq_eq_false_iff_ne, ne_eq]
        exact hac
      rw [this]
      rcases List.mem_cons.mp hc with rfl | hc
      · exact absurd rfl hac
      · exact ih c hc

theorem projectDf_colCells (df5 : DataFrame) (c : String)
    (hc : c ∈ colsOrder.filter (fun c => df5.headers.contains c)) :
    (projectDf df5).colCells c = df5.colCells c :=
  mk_map_colCells _ _ c hc

theorem projectDf_colQ (df5 : DataFrame) (c : String) (h1 : c ∈ colsOrder)
    (h2 : c ∈ df5.headers) : (projectDf df5).colQ c = df5.colQ c := by
  rw [DataFrame.colQ, projectDf_colCells df5 c
    (List.mem_filter.mpr ⟨h1, (contains_headers df5 c).mpr h2⟩), DataFrame.colQ]

theorem projectDf_mem_headers (df5 : DataFrame) (c : String) :
    c ∈ (projectDf df5).headers ↔ (c ∈ colsOrder ∧ c ∈ df5.headers) := by
  rw [projectDf_headers, List.mem_filter, contains_headers]

theorem projectDf_WF {df5 : DataFrame} {n : ℕ} (h : WFn df5 n) : WFn (projectDf df5) n := by
  intro p hp
  rw [projectDf] at hp
  rcases List.mem_map.mp hp with ⟨c, hc, rfl⟩
  have h2 := (List.mem_filter.mp hc).2
  exact colCells_length h ((contains_headers df5 c).mp h2)

theorem sortByRanking_headers (df : DataFrame) :
    (sortByRanking df).headers = df.headers := by
  rw [sortByRanking, DataFrame.headers, DataFrame.headers, List.map_map]
  rfl

theorem sortByRanking_colCells (df : DataFrame) (c : String) (hc : c ∈ df.headers) :
    (sortByRanking df).colCells c =
      (sortOrder df).map (fun i => (df.colCells c).getD i (Cell.num 0)) := by
  rw [sortByRanking, DataFrame.colCells, List.find?_map]
  have hcomp : ((fun p : String × List Cell => p.1 == c) ∘
      (fun p : String × List Cell =>
        (p.1, (sortOrder df).map (fun i => p.2.getD i (Cell.num 0))))) =
      (fun p : String × List Cell => p.1 == c) := rfl
  rw [hcomp]
  rcases find?_cols_of_mem hc with ⟨p, hp, hpc, hpm⟩
  rw [hp, colCells_of_find? hp]
  rfl

theorem getD_map_cellQ : ∀ (l : List Cell) (i : ℕ),
    (l.map cellQ).getD i 0 = cellQ (l.getD i (Cell.num 0)) := by
  intro l
  induction l with
  | nil =>
    intro i
    rfl
  | cons a l ih =>
    intro i
    cases i with
    | zero => rfl
    | succ i =>
      rw [List.map_cons, List.getD_cons_succ, List.getD_cons_succ]
      exact ih i

theorem sortByRanking_colQ (df : DataFrame) (c : String) (hc : c ∈ df.headers) :
    (sortByRanking df).colQ c =
      (sortOrder df).map (fun i => (df.colQ c).getD i 0) := by
  rw [DataFrame.colQ, sortByRanking_colCells df c hc, List.map_map]
  refine List.map_congr_left ?_
  intro i _
  exact (getD_map_cellQ _ _).symm

theorem sortOrder_perm (df : DataFrame) :
    List.Perm (sortOrder df) (List.range (df.colQ "Ranking").length) :=
  List.perm_insertionSort _ _

theorem sortOrder_sorted (df : DataFrame) :
    List.Pairwise (idxLe (df.colQ "Ranking")) (sortOrder df) :=
  List.sorted_insertionSort _ _

theorem range_map_getD {α : Type} : ∀ (l : List α) (d : α),
    (List.range l.length).map (fun i => l.getD i d) = l := by
  intro l
  induction l with
  | nil =>
    intro d
    rfl
  | cons a l ih =>
    intro d
    rw [List.length_cons, List.range_succ_eq_map, List.map_cons, List.map_map,
      List.getD_cons_zero]
    refine congrArg (List.cons a) ?_
    refine Eq.trans (List.map_congr_left ?_) (ih d)
    intro i _
    rfl

theorem getD_eq_getElem_of_lt {α : Type} (l : List α) {k : ℕ} (hk : k < l.length) (d : α) :
    l.getD k d = l[k] := by
  rw [List.getD_eq_getElem?_getD, List.getElem?_eq_getElem hk]
  rfl

theorem getD_mem_of_lt {α : Type} (l : List α) {k : ℕ} (hk : k < l.length) (d : α) :
    l.getD k d ∈ l := by
  rw [getD_eq_getElem_of_lt l hk d]
  exact List.getElem_mem hk

theorem getD_lt_map {α β : Type} (f : α → β) (l : List α) {k : ℕ} (hk : k < l.length)
    (d : α) (d' : β) : (l.map f).getD k d' = f (l.getD k d) := by
  rw [getD_eq_getElem_of_lt (l.map f) (by rw [List.length_map]; exact hk) d',
    getD_eq_getElem_of_lt l hk d, List.getElem_map]

theorem getD_lt_zipWith {α β γ : Type} (f : α → β → γ) (a : List α) (b : List β) {k : ℕ}
    (hk1 : k < a.length) (hk2 : k < b.length) (d1 : α) (d2 : β) (d3 : γ) :
    (List.zipWith f a b).getD k d3 = f (a.getD k d1) (b.getD k d2) := by
  have hk : k < (List.zipWith f a b).length := by
    rw [List.length_zipWith]
    omega
  rw [getD_eq_getElem_of_lt _ hk d3, getD_eq_getElem_of_lt a hk1 d1,
    getD_eq_getElem_of_lt b hk2 d2, List.getElem_zipWith]

theorem sum_map_mul_right_q (l : List ℚ) (b : ℚ) :
    (l.map (fun x => x * b)).sum = l.sum * b := by
  induction l with
  | nil => simp
  | cons a l ih => simp [ih, add_mul]

/-!
### Lemmas: the assembled pipeline
-/

theorem compute_ipmp_ok (df : DataFrame) (hreq : ∀ c ∈ needed, c ∈ df.headers) :
    compute_ipmp df = Except.ok (sortByRanking (finalFrame df)) := by
  have hnone : firstMissing df = none := by
    rw [firstMissing, List.find?_eq_none]
    intro c hc
    have hcont := (contains_headers df c).mpr (hreq c hc)
    rw [hcont]
    decide
  rw [compute_ipmp, hnone]
  rfl

theorem compute_ipmp_error (df : DataFrame) (c : String) (h : firstMissing df = some c) :
    compute_ipmp df = Except.error (errMsg c) := by
  rw [compute_ipmp, h]

theorem final_mem (df : DataFrame) (c : String) (h1 : c ∈ colsOrder)
    (h2 : c ∈ (derivedDf (coerceAll df)).headers) : c ∈ (finalFrame df).headers :=
  (projectDf_mem_headers _ c).mpr ⟨h1, h2⟩

theorem pipeline_facts (df : DataFrame) (n : ℕ) (hwf : WFn df n)
    (hreq : ∀ c ∈ needed, c ∈ df.headers) :
    ((coerceAll df).colQ "Bil. Ambil").length = n ∧
    (bezaOf (coerceAll df)).length = n ∧
    (pemberatOf (coerceAll df)).length = n ∧
    (ipmpOf (coerceAll df)).length = n ∧
    (rankOf (coerceAll df)).length = n ∧
    (finalFrame df).colQ "Ranking" = rankOf (coerceAll df) ∧
    (finalFrame df).colQ "IPMP" = ipmpOf (coerceAll df) ∧
    (finalFrame df).colQ "Pemberat" = pemberatOf (coerceAll df) ∧
    (finalFrame df).colQ "Beza Peratus (PPC - OTR2)" = bezaOf (coerceAll df) ∧
    (finalFrame df).colQ "Bil. Ambil" = (coerceAll df).colQ "Bil. Ambil" ∧
    (finalFrame df).colQ "% L PPC" = (coerceAll df).colQ "% L PPC" ∧
    (finalFrame df).colQ "% L OTR2" = (coerceAll df).colQ "% L OTR2" := by
  have hBA : "Bil. Ambil" ∈ df.headers := hreq _ (by decide)
  have hPPC : "% L PPC" ∈ df.headers := hreq _ (by decide)
  have hOTR : "% L OTR2" ∈ df.headers := hreq _ (by decide)
  have hwf1 : WFn (coerceAll df) n := coerceAll_WF hwf
  have hBA1 : "Bil. Ambil" ∈ (coerceAll df).headers := by
    rw [coerceAll_headers]
    exact hBA
  have hPPC1 : "% L PPC" ∈ (coerceAll df).headers := by
    rw [coerceAll_headers]
    exact hPPC
  have hOTR1 : "% L OTR2" ∈ (coerceAll df).headers := by
    rw [coerceAll_headers]
    exact hOTR
  have hBAlen : ((coerceAll df).colQ "Bil. Ambil").length = n := colQ_length hwf1 hBA1
  have hPPClen : ((coerceAll df).colQ "% L PPC").length = n := colQ_length hwf1 hPPC1
  have hOTRlen : ((coerceAll df).colQ "% L OTR2").length = n := colQ_length hwf1 hOTR1
  have hbeza : (bezaOf (coerceAll df)).length = n := by
    rw [bezaOf, List.length_zipWith, hPPClen, hOTRlen, Nat.min_self]
  have hpem : (pemberatOf (coerceAll df)).length = n := by
    rw [pemberatOf, List.length_map, hBAlen]
  have hipmp : (ipmpOf (coerceAll df)).length = n := by
    rw [ipmpOf, List.length_zipWith, hbeza, hpem, Nat.min_self]
  have hrank : (rankOf (coerceAll df)).length = n := by
    rw [rankOf, List.length_map, hipmp]
  have hd5BA : "Bil. Ambil" ∈ (derivedDf (coerceAll df)).headers :=
    (derivedDf_mem_headers _ _).mpr (Or.inl hBA1)
  have hd5PPC : "% L PPC" ∈ (derivedDf (coerceAll df)).headers :=
    (derivedDf_mem_headers _ _).mpr (Or.inl hPPC1)
  have hd5OTR : "% L OTR2" ∈ (derivedDf (coerceAll df)).headers :=
    (derivedDf_mem_headers _ _).mpr (Or.inl hOTR1)
  have hd5R : "Ranking" ∈ (derivedDf (coerceAll df)).headers :=
    (derivedDf_mem_headers _ _).mpr (Or.inr (by decide))
  have hd5I : "IPMP" ∈ (derivedDf (coerceAll df)).headers :=
    (derivedDf_mem_headers _ _).mpr (Or.inr (by decide))
  have hd5P : "Pemberat" ∈ (derivedDf (coerceAll df)).headers :=
    (derivedDf_mem_headers _ _).mpr (Or.inr (by decide))
  have hd5B : "Beza Peratus (PPC - OTR2)" ∈ (derivedDf (coerceAll df)).headers :=
    (derivedDf_mem_headers _ _).mpr (Or.inr (by decide))
  refine ⟨hBAlen, hbeza, hpem, hipmp, hrank, ?_, ?_, ?_, ?_, ?_, ?_, ?_⟩
  · rw [finalFrame, projectDf_colQ _ _ (by decide) hd5R, derivedDf_colQ_rank]
  · rw [finalFrame, projectDf_colQ _ _ (by decide) hd5I, derivedDf_colQ_ipmp]
  · rw [finalFrame, projectDf_colQ _ _ (by decide) hd5P, derivedDf_colQ_pemberat]
  · rw [finalFrame, projectDf_colQ _ _ (by decide) hd5B, derivedDf_colQ_beza]
  · rw [finalFrame, projectDf_colQ _ _ (by decide) hd5BA,
      derivedDf_colQ_other _ _ (by decide)]
  · rw [finalFrame, projectDf_colQ _ _ (by decide) hd5PPC,
      derivedDf_colQ_other _ _ (by decide)]
  · rw [finalFrame, projectDf_colQ _ _ (by decide) hd5OTR,
      derivedDf_colQ_other _ _ (by decide)]

theorem final_mem_of_req (df : DataFrame) (hreq : ∀ c ∈ needed, c ∈ df.headers)
    (c : String) (h1 : c ∈ colsOrder) (h2 : c ∈ needed ∨ c ∈ derivedNames) :
    c ∈ (finalFrame df).headers := by
  refine final_mem df c h1 ((derivedDf_mem_headers _ _).mpr ?_)
  rcases h2 with h2 | h2
  · left
    rw [coerceAll_headers]
    exact hreq c h2
  · right
    exact h2

theorem result_facts (df : DataFrame) (n : ℕ) (hwf : WFn df n)
    (hreq : ∀ c ∈ needed, c ∈ df.headers) :
    (sortOrder (finalFrame df)).length = n ∧
    (∀ k, k < n → (sortOrder (finalFrame df)).getD k 0 < n) ∧
    List.Perm (sortOrder (finalFrame df)) (List.range n) := by
  have hfacts := pipeline_facts df n hwf hreq
  have hranklen : ((finalFrame df).colQ "Ranking").length = n := by
    rw [hfacts.2.2.2.2.2.1]
    exact hfacts.2.2.2.2.1
  have hperm : List.Perm (sortOrder (finalFrame df)) (List.range n) := by
    have := sortOrder_perm (finalFrame df)
    rw [hranklen] at this
    exact this
  have hlen : (sortOrder (finalFrame df)).length = n := by
    rw [hperm.length_eq, List.length_range]
  refine ⟨hlen, ?_, hperm⟩
  intro k hk
  have hmem : (sortOrder (finalFrame df)).getD k 0 ∈ sortOrder (finalFrame df) :=
    getD_mem_of_lt _ (by rw [hlen]; exact hk) 0
  exact List.mem_range.mp (hperm.mem_iff.mp hmem)

/-!
### Claims C2 and C3: missing columns and numeric coercion
-/

/-- C2: `compute_ipmp` raises its `ValueError` naming the first missing
required column — `firstMissing` is exactly the source's scan of
`needed = [Mata Pelajaran, Bil. Ambil, % L PPC, % L OTR2]` in order (the
spec's Subject, Taken, PassRatePPC, PassRateOTR2) — and produces no result;
when all four are present no error is raised, and the optional
`Bil. Daftar` (Registered) column, when absent from the input, is absent
from the output as well. -/
theorem C2_missing_column (df df2 : DataFrame) (c : String)
    (h1 : firstMissing df = some c)
    (h2 : ∀ c ∈ needed, c ∈ df2.headers)
    (h3 : ¬"Bil. Daftar" ∈ df2.headers) :
    (compute_ipmp df = Except.error (errMsg c) ∧ c ∈ needed ∧ ¬c ∈ df.headers) ∧
    (∃ res, compute_ipmp df2 = Except.ok res ∧ ¬"Bil. Daftar" ∈ res.headers) := by
  constructor
  · refine ⟨compute_ipmp_error df c h1, ?_, ?_⟩
    · exact List.mem_of_find?_eq_some h1
    · have hp := List.find?_some h1
      simp only [Bool.not_eq_eq_eq_not, Bool.not_true] at hp
      intro hmem
      rw [(contains_headers df c).mpr hmem] at hp
      exact absurd hp (by decide)
  · refine ⟨sortByRanking (finalFrame df2), compute_ipmp_ok df2 h2, ?_⟩
    intro hmem
    rw [sortByRanking_headers] at hmem
    rcases (projectDf_mem_headers _ _).mp hmem with ⟨_, hd5⟩
    rcases (derivedDf_mem_headers _ _).mp hd5 with hd1 | hder
    · rw [coerceAll_headers] at hd1
      exact h3 hd1
    · exact absurd hder (by decide)

/-- Witness for `C2_missing_column`: a table missing `Bil. Ambil` (Taken)
errors with the message naming it, and a complete table without
`Bil. Daftar` computes a result without that column. -/
theorem C2_missing_column_witness :
    (firstMissing ⟨[("Mata Pelajaran", []), ("% L PPC", []), ("% L OTR2", [])]⟩ =
      some "Bil. Ambil") ∧
    (∀ c ∈ needed,
      c ∈ (DataFrame.mk [("Mata Pelajaran", []), ("Bil. Ambil", []),
        ("% L PPC", []), ("% L OTR2", [])]).headers) ∧
    (¬"Bil. Daftar" ∈ (DataFrame.mk [("Mata Pelajaran", []), ("Bil. Ambil", []),
        ("% L PPC", []), ("% L OTR2", [])]).headers) ∧
    ((compute_ipmp ⟨[("Mata Pelajaran", []), ("% L PPC", []), ("% L OTR2", [])]⟩ =
        Except.error (errMsg "Bil. Ambil") ∧ "Bil. Ambil" ∈ needed ∧
        ¬"Bil. Ambil" ∈ (DataFrame.mk [("Mata Pelajaran", []), ("% L PPC", []),
          ("% L OTR2", [])]).headers) ∧
      (∃ res, compute_ipmp (DataFrame.mk [("Mata Pelajaran", []), ("Bil. Ambil", []),
          ("% L PPC", []), ("% L OTR2", [])]) = Except.ok res ∧
        ¬"Bil. Daftar" ∈ res.headers)) :=
  ⟨by decide, by decide, by decide,
    C2_missing_column ⟨[("Mata Pelajaran", []), ("% L PPC", []), ("% L OTR2", [])]⟩
      (DataFrame.mk [("Mata Pelajaran", []), ("Bil. Ambil", []),
        ("% L PPC", []), ("% L OTR2", [])]) "Bil. Ambil"
      (by decide) (by decide) (by decide)⟩

/-- C3: the numeric coercion of `compute_ipmp` (its `coerceAll` pass, applied
to every listed numeric column present in the table) maps every cell through
`coerceCell`: a string cell that parses as a number becomes that number, a
cell that fails to parse (such as `"abc"` or the empty string) becomes `0.0`
without any error, and `"42"` becomes `42.0`. -/
theorem C3_numeric_coercion (df : DataFrame) (c : String) (hc : c ∈ numericCols)
    (hm : c ∈ df.headers) :
    (coerceAll df).colCells c = (df.colCells c).map coerceCell ∧
    ((∀ c' ∈ needed, c' ∈ df.headers) →
      compute_ipmp df = Except.ok (sortByRanking (projectDf (derivedDf (coerceAll df))))) ∧
    (∀ s, parseNumString s = none → coerceCell (Cell.str s) = Cell.num 0) ∧
    (∀ s q, parseNumString s = some q → coerceCell (Cell.str s) = Cell.num q) ∧
    (∀ q, coerceCell (Cell.num q) = Cell.num q) ∧
    parseNumString "abc" = none ∧ parseNumString "" = none ∧
    parseNumString "42" = some 42 := by
  refine ⟨coerceAll_colCells hc hm, compute_ipmp_ok df, ?_, ?_, ?_, ?_, ?_, ?_⟩
  · intro s hs
    rw [coerceCell, hs]
    rfl
  · intro s q hs
    rw [coerceCell, hs]
    rfl
  · intro q
    rfl
  · decide
  · decide
  · decide

/-- Witness for `C3_numeric_coercion` on a one-column table holding `"abc"`,
`""` and `"42"`. -/
theorem C3_numeric_coercion_witness :
    ("Bil. Ambil" ∈ numericCols) ∧
    ("Bil. Ambil" ∈ (DataFrame.mk [("Bil. Ambil",
      [Cell.str "abc", Cell.str "", Cell.str "42"])]).headers) ∧
    ((coerceAll (DataFrame.mk [("Bil. Ambil",
        [Cell.str "abc", Cell.str "", Cell.str "42"])])).colCells "Bil. Ambil" =
      ((DataFrame.mk [("Bil. Ambil",
        [Cell.str "abc", Cell.str "", Cell.str "42"])]).colCells "Bil. Ambil").map
        coerceCell ∧
      ((∀ c' ∈ needed, c' ∈ (DataFrame.mk [("Bil. Ambil",
          [Cell.str "abc", Cell.str "", Cell.str "42"])]).headers) →
        compute_ipmp (DataFrame.mk [("Bil. Ambil",
          [Cell.str "abc", Cell.str "", Cell.str "42"])]) =
          Except.ok (sortByRanking (projectDf (derivedDf (coerceAll
            (DataFrame.mk [("Bil. Ambil",
              [Cell.str "abc", Cell.str "", Cell.str "42"])])))))) ∧
      (∀ s, parseNumString s = none → coerceCell (Cell.str s) = Cell.num 0) ∧
      (∀ s q, parseNumString s = some q → coerceCell (Cell.str s) = Cell.num q) ∧
      (∀ q, coerceCell (Cell.num q) = Cell.num q) ∧
      parseNumString "abc" = none ∧ parseNumString "" = none ∧
      parseNumString "42" = some 42) :=
  ⟨by decide, by decide,
    C3_numeric_coercion (DataFrame.mk [("Bil. Ambil",
      [Cell.str "abc", Cell.str "", Cell.str "42"])]) "Bil. Ambil"
      (by decide) (by decide)⟩

/-!
### Claims C4 to C7: weights, ranks, the worked example, and weight sums
-/

/-- C4: in every computed result, each row's Pemberat (Weight) equals its
coerced Bil. Ambil (Taken) value divided by the total Taken when that total
is positive, and is `0` otherwise; in the zero-total case every IPMP value is
`0` as well, and no division-by-zero error can occur (`compute_ipmp` is a
total function returning `Except.ok` here). -/
theorem C4_weight_safety (df : DataFrame) (n : ℕ) (hwf : WFn df n)
    (hreq : ∀ c ∈ needed, c ∈ df.headers) :
    ∃ res, compute_ipmp df = Except.ok res ∧
      (∀ k, k < n →
        (res.colQ "Pemberat").getD k 0 =
          if 0 < totalTaken df then (res.colQ "Bil. Ambil").getD k 0 / totalTaken df
          else 0) ∧
      (¬0 < totalTaken df → ∀ k, k < n →
        (res.colQ "Pemberat").getD k 0 = 0 ∧ (res.colQ "IPMP").getD k 0 = 0) := by
  obtain ⟨hBAlen, hbezalen, hpemlen, hipmplen, hranklen, hR, hI, hP, hB, hBA, hPPCc, hOTRc⟩ :=
    pipeline_facts df n hwf hreq
  obtain ⟨hslen, hsmem, hperm⟩ := result_facts df n hwf hreq
  have hcolP := sortByRanking_colQ (finalFrame df) "Pemberat"
    (final_mem_of_req df hreq _ (by decide) (Or.inr (by decide)))
  have hcolBA := sortByRanking_colQ (finalFrame df) "Bil. Ambil"
    (final_mem_of_req df hreq _ (by decide) (Or.inl (by decide)))
  have hcolI := sortByRanking_colQ (finalFrame df) "IPMP"
    (final_mem_of_req df hreq _ (by decide) (Or.inr (by decide)))
  have htot : totalTaken df = totalOf (coerceAll df) := rfl
  refine ⟨sortByRanking (finalFrame df), compute_ipmp_ok df hreq, ?_, ?_⟩
  · intro k hk
    have hi : (sortOrder (finalFrame df)).getD k 0 < n := hsmem k hk
    rw [hcolP, hcolBA, getD_lt_map _ _ (by rw [hslen]; exact hk) 0 0,
      getD_lt_map _ _ (by rw [hslen]; exact hk) 0 0, hP, hBA, pemberatOf,
      getD_lt_map _ _ (by rw [colQ_length (coerceAll_WF hwf) (by rw [coerceAll_headers]; exact hreq _ (by decide))]; exact hi) 0 0,
      htot, qDiv_eq]
  · intro hpos k hk
    have hi : (sortOrder (finalFrame df)).getD k 0 < n := hsmem k hk
    have hpem0 : (pemberatOf (coerceAll df)).getD ((sortOrder (finalFrame df)).getD k 0) 0 = 0 := by
      rw [pemberatOf,
        getD_lt_map _ _ (by rw [colQ_length (coerceAll_WF hwf) (by rw [coerceAll_headers]; exact hreq _ (by decide))]; exact hi) 0 0,
        if_neg (by rw [← htot]; exact hpos)]
    constructor
    · rw [hcolP, getD_lt_map _ _ (by rw [hslen]; exact hk) 0 0, hP, hpem0]
    · rw [hcolI, getD_lt_map _ _ (by rw [hslen]; exact hk) 0 0, hI, ipmpOf,
        getD_lt_zipWith _ _ _ (by rw [hbezalen]; exact hi) (by rw [hpemlen]; exact hi) 0 0 0,
        hpem0, qMul_eq, mul_zero]

set_option maxHeartbeats 1600000 in
/-- Witness for `C4_weight_safety` on a concrete two-row table. -/
theorem C4_weight_safety_witness :
    WFn ⟨[("Mata Pelajaran", [Cell.str "A", Cell.str "B"]),
      ("Bil. Ambil", [Cell.num 100, Cell.num 50]),
      ("% L PPC", [Cell.num 80, Cell.num 60]),
      ("% L OTR2", [Cell.num 70, Cell.num 65])]⟩ 2 ∧
    (∀ c ∈ needed, c ∈ (DataFrame.mk [("Mata Pelajaran", [Cell.str "A", Cell.str "B"]),
      ("Bil. Ambil", [Cell.num 100, Cell.num 50]),
      ("% L PPC", [Cell.num 80, Cell.num 60]),
      ("% L OTR2", [Cell.num 70, Cell.num 65])]).headers) ∧
    (∃ res, compute_ipmp ⟨[("Mata Pelajaran", [Cell.str "A", Cell.str "B"]),
        ("Bil. Ambil", [Cell.num 100, Cell.num 50]),
        ("% L PPC", [Cell.num 80, Cell.num 60]),
        ("% L OTR2", [Cell.num 70, Cell.num 65])]⟩ = Except.ok res ∧
      (∀ k, k < 2 →
        (res.colQ "Pemberat").getD k 0 =
          if 0 < totalTaken ⟨[("Mata Pelajaran", [Cell.str "A", Cell.str "B"]),
              ("Bil. Ambil", [Cell.num 100, Cell.num 50]),
              ("% L PPC", [Cell.num 80, Cell.num 60]),
              ("% L OTR2", [Cell.num 70, Cell.num 65])]⟩ then
            (res.colQ "Bil. Ambil").getD k 0 /
              totalTaken ⟨[("Mata Pelajaran", [Cell.str "A", Cell.str "B"]),
                ("Bil. Ambil", [Cell.num 100, Cell.num 50]),
                ("% L PPC", [Cell.num 80, Cell.num 60]),
                ("% L OTR2", [Cell.num 70, Cell.num 65])]⟩
          else 0) ∧
      (¬0 < totalTaken ⟨[("Mata Pelajaran", [Cell.str "A", Cell.str "B"]),
          ("Bil. Ambil", [Cell.num 100, Cell.num 50]),
          ("% L PPC", [Cell.num 80, Cell.num 60]),
          ("% L OTR2", [Cell.num 70, Cell.num 65])]⟩ → ∀ k, k < 2 →
        (res.colQ "Pemberat").getD k 0 = 0 ∧ (res.colQ "IPMP").getD k 0 = 0)) :=
  ⟨by decide, by decide,
    C4_weight_safety ⟨[("Mata Pelajaran", [Cell.str "A", Cell.str "B"]),
      ("Bil. Ambil", [Cell.num 100, Cell.num 50]),
      ("% L PPC", [Cell.num 80, Cell.num 60]),
      ("% L OTR2", [Cell.num 70, Cell.num 65])]⟩ 2 (by decide) (by decide)⟩

set_option maxHeartbeats 1600000 in
/-- C5: in every result, each row's Ranking equals one plus the number of
rows with strictly greater IPMP (competition / minimum-rank semantics), and
on a concrete table whose IPMP values are `[5, 5, 3]` the ranks are
`[1, 1, 3]` — not `[1, 1, 2]` and not `[1, 2, 3]`. -/
theorem C5_rank_semantics (df : DataFrame) (n : ℕ) (hwf : WFn df n)
    (hreq : ∀ c ∈ needed, c ∈ df.headers) :
    ∃ res, compute_ipmp df = Except.ok res ∧
      (∀ k, k < n →
        (res.colQ "Ranking").getD k 0 =
          ((1 + (res.colQ "IPMP").countP
            (fun y => decide ((res.colQ "IPMP").getD k 0 < y)) : ℕ) : ℚ)) ∧
      ((compute_ipmp ⟨[("Mata Pelajaran", [Cell.str "A", Cell.str "B", Cell.str "C"]),
          ("Bil. Ambil", [Cell.num 1, Cell.num 1, Cell.num 1]),
          ("% L PPC", [Cell.num 15, Cell.num 15, Cell.num 9]),
          ("% L OTR2", [Cell.num 0, Cell.num 0, Cell.num 0])]⟩).toOption.map
        (fun r => r.colQ "IPMP") = some [5, 5, 3] ∧
      (compute_ipmp ⟨[("Mata Pelajaran", [Cell.str "A", Cell.str "B", Cell.str "C"]),
          ("Bil. Ambil", [Cell.num 1, Cell.num 1, Cell.num 1]),
          ("% L PPC", [Cell.num 15, Cell.num 15, Cell.num 9]),
          ("% L OTR2", [Cell.num 0, Cell.num 0, Cell.num 0])]⟩).toOption.map
        (fun r => r.colQ "Ranking") = some [1, 1, 3]) := by
  obtain ⟨hBAlen, hbezalen, hpemlen, hipmplen, hranklen, hR, hI, hP, hB, hBA, hPPCc, hOTRc⟩ :=
    pipeline_facts df n hwf hreq
  obtain ⟨hslen, hsmem, hperm⟩ := result_facts df n hwf hreq
  have hcolR := sortByRanking_colQ (finalFrame df) "Ranking"
    (final_mem_of_req df hreq _ (by decide) (Or.inr (by decide)))
  have hcolI := sortByRanking_colQ (finalFrame df) "IPMP"
    (final_mem_of_req df hreq _ (by decide) (Or.inr (by decide)))
  have hpermI : List.Perm ((sortByRanking (finalFrame df)).colQ "IPMP")
      (ipmpOf (coerceAll df)) := by
    rw [hcolI, hI]
    have h1 := hperm.map (fun i => (ipmpOf (coerceAll df)).getD i 0)
    have h2 : (List.range n).map (fun i => (ipmpOf (coerceAll df)).getD i 0) =
        ipmpOf (coerceAll df) := by
      rw [← hipmplen]
      exact range_map_getD _ 0
    rw [h2] at h1
    exact h1
  refine ⟨sortByRanking (finalFrame df), compute_ipmp_ok df hreq, ?_, by decide, by decide⟩
  intro k hk
  have hi : (sortOrder (finalFrame df)).getD k 0 < n := hsmem k hk
  have hIk : ((sortByRanking (finalFrame df)).colQ "IPMP").getD k 0 =
      (ipmpOf (coerceAll df)).getD ((sortOrder (finalFrame df)).getD k 0) 0 := by
    rw [hcolI, getD_lt_map _ _ (by rw [hslen]; exact hk) 0 0, hI]
  rw [hcolR, getD_lt_map _ _ (by rw [hslen]; exact hk) 0 0, hR, rankOf,
    getD_lt_map _ _ (by rw [hipmplen]; exact hi) 0 0, hIk]
  refine congrArg (fun m : ℕ => ((1 + m : ℕ) : ℚ)) ?_
  exact List.Perm.countP_congr hpermI.symm (fun x _ => rfl)

set_option maxHeartbeats 1600000 in
/-- Witness for `C5_rank_semantics` on the concrete three-row table with tied
IPMP values. -/
theorem C5_rank_semantics_witness :
    WFn ⟨[("Mata Pelajaran", [Cell.str "A", Cell.str "B", Cell.str "C"]),
      ("Bil. Ambil", [Cell.num 1, Cell.num 1, Cell.num 1]),
      ("% L PPC", [Cell.num 15, Cell.num 15, Cell.num 9]),
      ("% L OTR2", [Cell.num 0, Cell.num 0, Cell.num 0])]⟩ 3 ∧
    (∀ c ∈ needed, c ∈ (DataFrame.mk [("Mata Pelajaran",
      [Cell.str "A", Cell.str "B", Cell.str "C"]),
      ("Bil. Ambil", [Cell.num 1, Cell.num 1, Cell.num 1]),
      ("% L PPC", [Cell.num 15, Cell.num 15, Cell.num 9]),
      ("% L OTR2", [Cell.num 0, Cell.num 0, Cell.num 0])]).headers) ∧
    (∃ res, compute_ipmp ⟨[("Mata Pelajaran",
        [Cell.str "A", Cell.str "B", Cell.str "C"]),
        ("Bil. Ambil", [Cell.num 1, Cell.num 1, Cell.num 1]),
        ("% L PPC", [Cell.num 15, Cell.num 15, Cell.num 9]),
        ("% L OTR2", [Cell.num 0, Cell.num 0, Cell.num 0])]⟩ = Except.ok res ∧
      (∀ k, k < 3 →
        (res.colQ "Ranking").getD k 0 =
          ((1 + (res.colQ "IPMP").countP
            (fun y => decide ((res.colQ "IPMP").getD k 0 < y)) : ℕ) : ℚ)) ∧
      ((compute_ipmp ⟨[("Mata Pelajaran", [Cell.str "A", Cell.str "B", Cell.str "C"]),
          ("Bil. Ambil", [Cell.num 1, Cell.num 1, Cell.num 1]),
          ("% L PPC", [Cell.num 15, Cell.num 15, Cell.num 9]),
          ("% L OTR2", [Cell.num 0, Cell.num 0, Cell.num 0])]⟩).toOption.map
        (fun r => r.colQ "IPMP") = some [5, 5, 3] ∧
      (compute_ipmp ⟨[("Mata Pelajaran", [Cell.str "A", Cell.str "B", Cell.str "C"]),
          ("Bil. Ambil", [Cell.num 1, Cell.num 1, Cell.num 1]),
          ("% L PPC", [Cell.num 15, Cell.num 15, Cell.num 9]),
          ("% L OTR2", [Cell.num 0, Cell.num 0, Cell.num 0])]⟩).toOption.map
        (fun r => r.colQ "Ranking") = some [1, 1, 3])) :=
  ⟨by decide, by decide,
    C5_rank_semantics ⟨[("Mata Pelajaran", [Cell.str "A", Cell.str "B", Cell.str "C"]),
      ("Bil. Ambil", [Cell.num 1, Cell.num 1, Cell.num 1]),
      ("% L PPC", [Cell.num 15, Cell.num 15, Cell.num 9]),
      ("% L OTR2", [Cell.num 0, Cell.num 0, Cell.num 0])]⟩ 3 (by decide) (by decide)⟩

set_option maxHeartbeats 1600000 in
/-- C6: in every result, each row's Beza Peratus (Difference) equals its
% L PPC minus its % L OTR2, and its IPMP equals Difference times Pemberat
(Weight); on the spec's two-row example (Math: Taken 100, PPC 80, OTR2 70;
Science: Taken 50, PPC 60, OTR2 65) the total Taken is 150 and the result is
exactly Math: Difference 10, Weight 2/3 = 100/150, IPMP 20/3 ≈ 6.667,
Rank 1, then Science: Difference −5, Weight 1/3, IPMP −5/3 ≈ −1.667,
Rank 2, with the rows ordered [Math, Science]. -/
theorem C6_difference_and_example (df : DataFrame) (n : ℕ) (hwf : WFn df n)
    (hreq : ∀ c ∈ needed, c ∈ df.headers) :
    ∃ res, compute_ipmp df = Except.ok res ∧
      (∀ k, k < n →
        (res.colQ "Beza Peratus (PPC - OTR2)").getD k 0 =
          (res.colQ "% L PPC").getD k 0 - (res.colQ "% L OTR2").getD k 0 ∧
        (res.colQ "IPMP").getD k 0 =
          (res.colQ "Beza Peratus (PPC - OTR2)").getD k 0 *
            (res.colQ "Pemberat").getD k 0) ∧
      (totalTaken ⟨[("Mata Pelajaran", [Cell.str "Math", Cell.str "Science"]),
          ("Bil. Ambil", [Cell.num 100, Cell.num 50]),
          ("% L PPC", [Cell.num 80, Cell.num 60]),
          ("% L OTR2", [Cell.num 70, Cell.num 65])]⟩ = 150 ∧
        compute_ipmp ⟨[("Mata Pelajaran", [Cell.str "Math", Cell.str "Science"]),
          ("Bil. Ambil", [Cell.num 100, Cell.num 50]),
          ("% L PPC", [Cell.num 80, Cell.num 60]),
          ("% L OTR2", [Cell.num 70, Cell.num 65])]⟩ = Except.ok
            ⟨[("Mata Pelajaran", [Cell.str "Math", Cell.str "Science"]),
              ("Bil. Ambil", [Cell.num 100, Cell.num 50]),
              ("% L PPC", [Cell.num 80, Cell.num 60]),
              ("% L OTR2", [Cell.num 70, Cell.num 65]),
              ("Beza Peratus (PPC - OTR2)", [Cell.num 10, Cell.num (-5)]),
              ("Pemberat", [Cell.num (qmkInt 2 3), Cell.num (qmkInt 1 3)]),
              ("IPMP", [Cell.num (qmkInt 20 3), Cell.num (qmkInt (-5) 3)]),
              ("Ranking", [Cell.num 1, Cell.num 2])]⟩ ∧
        (qmkInt 2 3 : ℚ) = 100 / 150 ∧ (qmkInt 1 3 : ℚ) = 50 / 150 ∧
        (qmkInt 20 3 : ℚ) = 10 * (100 / 150) ∧
        (qmkInt (-5) 3 : ℚ) = (-5) * (50 / 150)) := by
  obtain ⟨hBAlen, hbezalen, hpemlen, hipmplen, hranklen, hR, hI, hP, hB, hBA, hPPCc, hOTRc⟩ :=
    pipeline_facts df n hwf hreq
  obtain ⟨hslen, hsmem, hperm⟩ := result_facts df n hwf hreq
  have hwf1 : WFn (coerceAll df) n := coerceAll_WF hwf
  have hPPClen : ((coerceAll df).colQ "% L PPC").length = n :=
    colQ_length hwf1 (by rw [coerceAll_headers]; exact hreq _ (by decide))
  have hOTRlen : ((coerceAll df).colQ "% L OTR2").length = n :=
    colQ_length hwf1 (by rw [coerceAll_headers]; exact hreq _ (by decide))
  have hcolB := sortByRanking_colQ (finalFrame df) "Beza Peratus (PPC - OTR2)"
    (final_mem_of_req df hreq _ (by decide) (Or.inr (by decide)))
  have hcolP := sortByRanking_colQ (finalFrame df) "Pemberat"
    (final_mem_of_req df hreq _ (by decide) (Or.inr (by decide)))
  have hcolI := sortByRanking_colQ (finalFrame df) "IPMP"
    (final_mem_of_req df hreq _ (by decide) (Or.inr (by decide)))
  have hcolPPC := sortByRanking_colQ (finalFrame df) "% L PPC"
    (final_mem_of_req df hreq _ (by decide) (Or.inl (by decide)))
  have hcolOTR := sortByRanking_colQ (finalFrame df) "% L OTR2"
    (final_mem_of_req df hreq _ (by decide) (Or.inl (by decide)))
  refine ⟨sortByRanking (finalFrame df), compute_ipmp_ok df hreq, ?_,
    by decide, by decide,
    by rw [qmkInt_eq]; norm_num, by rw [qmkInt_eq]; norm_num,
    by rw [qmkInt_eq]; norm_num, by rw [qmkInt_eq]; norm_num⟩
  intro k hk
  have hi : (sortOrder (finalFrame df)).getD k 0 < n := hsmem k hk
  constructor
  · rw [hcolB, hcolPPC, hcolOTR, getD_lt_map _ _ (by rw [hslen]; exact hk) 0 0,
      getD_lt_map _ _ (by rw [hslen]; exact hk) 0 0,
      getD_lt_map _ _ (by rw [hslen]; exact hk) 0 0, hB, hPPCc, hOTRc, bezaOf,
      getD_lt_zipWith _ _ _ (by rw [hPPClen]; exact hi) (by rw [hOTRlen]; exact hi) 0 0 0,
      qSub_eq]
  · rw [hcolI, hcolB, hcolP, getD_lt_map _ _ (by rw [hslen]; exact hk) 0 0,
      getD_lt_map _ _ (by rw [hslen]; exact hk) 0 0,
      getD_lt_map _ _ (by rw [hslen]; exact hk) 0 0, hI, hB, hP, ipmpOf,
      getD_lt_zipWith _ _ _ (by rw [hbezalen]; exact hi) (by rw [hpemlen]; exact hi) 0 0 0,
      qMul_eq]

set_option maxHeartbeats 1600000 in
/-- Witness for `C6_difference_and_example`, applied at the spec's own
two-row example table. -/
theorem C6_difference_and_example_witness :
    WFn ⟨[("Mata Pelajaran", [Cell.str "Math", Cell.str "Science"]),
      ("Bil. Ambil", [Cell.num 100, Cell.num 50]),
      ("% L PPC", [Cell.num 80, Cell.num 60]),
      ("% L OTR2", [Cell.num 70, Cell.num 65])]⟩ 2 ∧
    (∀ c ∈ needed, c ∈ (DataFrame.mk [("Mata Pelajaran",
      [Cell.str "Math", Cell.str "Science"]),
      ("Bil. Ambil", [Cell.num 100, Cell.num 50]),
      ("% L PPC", [Cell.num 80, Cell.num 60]),
      ("% L OTR2", [Cell.num 70, Cell.num 65])]).headers) ∧
    (∃ res, compute_ipmp ⟨[("Mata Pelajaran", [Cell.str "Math", Cell.str "Science"]),
        ("Bil. Ambil", [Cell.num 100, Cell.num 50]),
        ("% L PPC", [Cell.num 80, Cell.num 60]),
        ("% L OTR2", [Cell.num 70, Cell.num 65])]⟩ = Except.ok res ∧
      (∀ k, k < 2 →
        (res.colQ "Beza Peratus (PPC - OTR2)").getD k 0 =
          (res.colQ "% L PPC").getD k 0 - (res.colQ "% L OTR2").getD k 0 ∧
        (res.colQ "IPMP").getD k 0 =
          (res.colQ "Beza Peratus (PPC - OTR2)").getD k 0 *
            (res.colQ "Pemberat").getD k 0) ∧
      (totalTaken ⟨[("Mata Pelajaran", [Cell.str "Math", Cell.str "Science"]),
          ("Bil. Ambil", [Cell.num 100, Cell.num 50]),
          ("% L PPC", [Cell.num 80, Cell.num 60]),
          ("% L OTR2", [Cell.num 70, Cell.num 65])]⟩ = 150 ∧
        compute_ipmp ⟨[("Mata Pelajaran", [Cell.str "Math", Cell.str "Science"]),
          ("Bil. Ambil", [Cell.num 100, Cell.num 50]),
          ("% L PPC", [Cell.num 80, Cell.num 60]),
          ("% L OTR2", [Cell.num 70, Cell.num 65])]⟩ = Except.ok
            ⟨[("Mata Pelajaran", [Cell.str "Math", Cell.str "Science"]),
              ("Bil. Ambil", [Cell.num 100, Cell.num 50]),
              ("% L PPC", [Cell.num 80, Cell.num 60]),
              ("% L OTR2", [Cell.num 70, Cell.num 65]),
              ("Beza Peratus (PPC - OTR2)", [Cell.num 10, Cell.num (-5)]),
              ("Pemberat", [Cell.num (qmkInt 2 3), Cell.num (qmkInt 1 3)]),
              ("IPMP", [Cell.num (qmkInt 20 3), Cell.num (qmkInt (-5) 3)]),
              ("Ranking", [Cell.num 1, Cell.num 2])]⟩ ∧
        (qmkInt 2 3 : ℚ) = 100 / 150 ∧ (qmkInt 1 3 : ℚ) = 50 / 150 ∧
        (qmkInt 20 3 : ℚ) = 10 * (100 / 150) ∧
        (qmkInt (-5) 3 : ℚ) = (-5) * (50 / 150))) :=
  ⟨by decide, by decide,
    C6_difference_and_example ⟨[("Mata Pelajaran", [Cell.str "Math", Cell.str "Science"]),
      ("Bil. Ambil", [Cell.num 100, Cell.num 50]),
      ("% L PPC", [Cell.num 80, Cell.num 60]),
      ("% L OTR2", [Cell.num 70, Cell.num 65])]⟩ 2 (by decide) (by decide)⟩

/-- C7: for every table with the required columns whose total coerced Taken
is strictly positive, the Pemberat (Weight) column of the result sums to
exactly `1`. -/
theorem C7_weights_sum_to_one (df : DataFrame) (n : ℕ) (hwf : WFn df n)
    (hreq : ∀ c ∈ needed, c ∈ df.headers) (hpos : 0 < totalTaken df) :
    ∃ res, compute_ipmp df = Except.ok res ∧ (res.colQ "Pemberat").sum = 1 := by
  obtain ⟨hBAlen, hbezalen, hpemlen, hipmplen, hranklen, hR, hI, hP, hB, hBA, hPPCc, hOTRc⟩ :=
    pipeline_facts df n hwf hreq
  obtain ⟨hslen, hsmem, hperm⟩ := result_facts df n hwf hreq
  have hcolP := sortByRanking_colQ (finalFrame df) "Pemberat"
    (final_mem_of_req df hreq _ (by decide) (Or.inr (by decide)))
  have htot : totalTaken df = totalOf (coerceAll df) := rfl
  have hpos1 : 0 < totalOf (coerceAll df) := by
    rw [← htot]
    exact hpos
  have hne : totalOf (coerceAll df) ≠ 0 := ne_of_gt hpos1
  have hpermP : List.Perm ((sortByRanking (finalFrame df)).colQ "Pemberat")
      (pemberatOf (coerceAll df)) := by
    rw [hcolP, hP]
    have h1 := hperm.map (fun i => (pemberatOf (coerceAll df)).getD i 0)
    have h2 : (List.range n).map (fun i => (pemberatOf (coerceAll df)).getD i 0) =
        pemberatOf (coerceAll df) := by
      rw [← hpemlen]
      exact range_map_getD _ 0
    rw [h2] at h1
    exact h1
  refine ⟨sortByRanking (finalFrame df), compute_ipmp_ok df hreq, ?_⟩
  rw [hpermP.sum_eq]
  have hmap : pemberatOf (coerceAll df) =
      ((coerceAll df).colQ "Bil. Ambil").map
        (fun t => t * (totalOf (coerceAll df))⁻¹) := by
    rw [pemberatOf]
    refine List.map_congr_left ?_
    intro t _
    rw [if_pos hpos1, qDiv_eq, div_eq_mul_inv]
  rw [hmap, sum_map_mul_right_q]
  have hsum : ((coerceAll df).colQ "Bil. Ambil").sum = totalOf (coerceAll df) := by
    rw [totalOf, qSum_eq]
  rw [hsum, mul_inv_cancel₀ hne]

set_option maxHeartbeats 1600000 in
/-- Witness for `C7_weights_sum_to_one` on a concrete two-row table with
total Taken `150`. -/
theorem C7_weights_sum_to_one_witness :
    WFn ⟨[("Mata Pelajaran", [Cell.str "A", Cell.str "B"]),
      ("Bil. Ambil", [Cell.num 100, Cell.num 50]),
      ("% L PPC", [Cell.num 80, Cell.num 60]),
      ("% L OTR2", [Cell.num 70, Cell.num 65])]⟩ 2 ∧
    (∀ c ∈ needed, c ∈ (DataFrame.mk [("Mata Pelajaran", [Cell.str "A", Cell.str "B"]),
      ("Bil. Ambil", [Cell.num 100, Cell.num 50]),
      ("% L PPC", [Cell.num 80, Cell.num 60]),
      ("% L OTR2", [Cell.num 70, Cell.num 65])]).headers) ∧
    (0 < totalTaken ⟨[("Mata Pelajaran", [Cell.str "A", Cell.str "B"]),
      ("Bil. Ambil", [Cell.num 100, Cell.num 50]),
      ("% L PPC", [Cell.num 80, Cell.num 60]),
      ("% L OTR2", [Cell.num 70, Cell.num 65])]⟩) ∧
    (∃ res, compute_ipmp ⟨[("Mata Pelajaran", [Cell.str "A", Cell.str "B"]),
        ("Bil. Ambil", [Cell.num 100, Cell.num 50]),
        ("% L PPC", [Cell.num 80, Cell.num 60]),
        ("% L OTR2", [Cell.num 70, Cell.num 65])]⟩ = Except.ok res ∧
      (res.colQ "Pemberat").sum = 1) :=
  ⟨by decide, by decide, by decide,
    C7_weights_sum_to_one ⟨[("Mata Pelajaran", [Cell.str "A", Cell.str "B"]),
      ("Bil. Ambil", [Cell.num 100, Cell.num 50]),
      ("% L PPC", [Cell.num 80, Cell.num 60]),
      ("% L OTR2", [Cell.num 70, Cell.num 65])]⟩ 2 (by decide) (by decide) (by decide)⟩

theorem sortByRanking_empty (X : DataFrame) (h : sortOrder X = []) :
    ∀ p ∈ (sortByRanking X).cols, p.2 = [] := by
  intro p hp
  have hp2 : p ∈ X.cols.map
      (fun q => (q.1, (sortOrder X).map (fun i => q.2.getD i (Cell.num 0)))) := hp
  rcases List.mem_map.mp hp2 with ⟨q, _, rfl⟩
  show (sortOrder X).map (fun i => q.2.getD i (Cell.num 0)) = []
  rw [h]
  rfl

/-!
### Claims C9 and C10: projection, ordering, and the empty table
-/

/-- C9: every successful result carries exactly the canonical input columns
plus the four derived ones, in the fixed order Mata Pelajaran (Subject),
Bil. Daftar (Registered, only when present in the input), Bil. Ambil
(Taken), % L PPC, % L OTR2, Beza Peratus (Difference), Pemberat (Weight),
IPMP, Ranking; non-canonical extra columns never appear; and the rows are
sorted ascending by the Ranking values. -/
theorem C9_projection_and_order (df : DataFrame)
    (hreq : ∀ c ∈ needed, c ∈ df.headers) :
    ∃ res, compute_ipmp df = Except.ok res ∧
      res.headers = (if "Bil. Daftar" ∈ df.headers then colsOrder
        else ["Mata Pelajaran", "Bil. Ambil", "% L PPC", "% L OTR2",
          "Beza Peratus (PPC - OTR2)", "Pemberat", "IPMP", "Ranking"]) ∧
      (∀ c, ¬c ∈ colsOrder → ¬c ∈ res.headers) ∧
      List.Pairwise (fun a b : ℚ => a ≤ b) (res.colQ "Ranking") := by
  have hmem : ∀ c ∈ needed, c ∈ (derivedDf (coerceAll df)).headers := by
    intro c hc
    refine (derivedDf_mem_headers _ _).mpr (Or.inl ?_)
    rw [coerceAll_headers]
    exact hreq c hc
  have hMPm : "Mata Pelajaran" ∈ (derivedDf (coerceAll df)).headers :=
    hmem _ (by decide)
  have hBAm : "Bil. Ambil" ∈ (derivedDf (coerceAll df)).headers :=
    hmem _ (by decide)
  have hPPCm : "% L PPC" ∈ (derivedDf (coerceAll df)).headers :=
    hmem _ (by decide)
  have hOTRm : "% L OTR2" ∈ (derivedDf (coerceAll df)).headers :=
    hmem _ (by decide)
  have hBm : "Beza Peratus (PPC - OTR2)" ∈ (derivedDf (coerceAll df)).headers :=
    (derivedDf_mem_headers _ _).mpr (Or.inr (by decide))
  have hPm : "Pemberat" ∈ (derivedDf (coerceAll df)).headers :=
    (derivedDf_mem_headers _ _).mpr (Or.inr (by decide))
  have hIm : "IPMP" ∈ (derivedDf (coerceAll df)).headers :=
    (derivedDf_mem_headers _ _).mpr (Or.inr (by decide))
  have hRm : "Ranking" ∈ (derivedDf (coerceAll df)).headers :=
    (derivedDf_mem_headers _ _).mpr (Or.inr (by decide))
  refine ⟨sortByRanking (finalFrame df), compute_ipmp_ok df hreq, ?_, ?_, ?_⟩
  · rw [sortByRanking_headers, finalFrame, projectDf_headers]
    by_cases hBD : "Bil. Daftar" ∈ df.headers
    · have hBDm : "Bil. Daftar" ∈ (derivedDf (coerceAll df)).headers := by
        refine (derivedDf_mem_headers _ _).mpr (Or.inl ?_)
        rw [coerceAll_headers]
        exact hBD
      rw [if_pos hBD]
      simp [colsOrder, List.filter_cons, hMPm, hBDm, hBAm, hPPCm, hOTRm, hBm, hPm,
        hIm, hRm]
    · have hBDm : ¬"Bil. Daftar" ∈ (derivedDf (coerceAll df)).headers := by
        intro hcont
        rcases (derivedDf_mem_headers _ _).mp hcont with h | h
        · rw [coerceAll_headers] at h
          exact hBD h
        · exact absurd h (by decide)
      rw [if_neg hBD]
      simp [colsOrder, List.filter_cons, hMPm, hBDm, hBAm, hPPCm, hOTRm, hBm, hPm,
        hIm, hRm]
  · intro c hc hcmem
    rw [sortByRanking_headers] at hcmem
    exact hc ((projectDf_mem_headers _ c).mp hcmem).1
  · have hcolR := sortByRanking_colQ (finalFrame df) "Ranking"
      (final_mem_of_req df hreq _ (by decide) (Or.inr (by decide)))
    rw [hcolR]
    refine List.Pairwise.map _ ?_ (sortOrder_sorted (finalFrame df))
    intro a b hab
    rcases hab with h | ⟨h, _⟩
    · exact le_of_lt h
    · exact le_of_eq h

set_option maxHeartbeats 1600000 in
/-- Witness for `C9_projection_and_order` on a table with an extra
non-canonical column and no Registered column. -/
theorem C9_projection_and_order_witness :
    (∀ c ∈ needed, c ∈ (DataFrame.mk [("Mata Pelajaran", [Cell.str "A"]),
      ("Bil. Ambil", [Cell.num 3]), ("% L PPC", [Cell.num 9]),
      ("% L OTR2", [Cell.num 4]), ("Extra", [Cell.str "x"])]).headers) ∧
    (∃ res, compute_ipmp ⟨[("Mata Pelajaran", [Cell.str "A"]),
        ("Bil. Ambil", [Cell.num 3]), ("% L PPC", [Cell.num 9]),
        ("% L OTR2", [Cell.num 4]), ("Extra", [Cell.str "x"])]⟩ = Except.ok res ∧
      res.headers = (if "Bil. Daftar" ∈ (DataFrame.mk [("Mata Pelajaran", [Cell.str "A"]),
          ("Bil. Ambil", [Cell.num 3]), ("% L PPC", [Cell.num 9]),
          ("% L OTR2", [Cell.num 4]), ("Extra", [Cell.str "x"])]).headers then colsOrder
        else ["Mata Pelajaran", "Bil. Ambil", "% L PPC", "% L OTR2",
          "Beza Peratus (PPC - OTR2)", "Pemberat", "IPMP", "Ranking"]) ∧
      (∀ c, ¬c ∈ colsOrder → ¬c ∈ res.headers) ∧
      List.Pairwise (fun a b : ℚ => a ≤ b) (res.colQ "Ranking")) :=
  ⟨by decide,
    C9_projection_and_order ⟨[("Mata Pelajaran", [Cell.str "A"]),
      ("Bil. Ambil", [Cell.num 3]), ("% L PPC", [Cell.num 9]),
      ("% L OTR2", [Cell.num 4]), ("Extra", [Cell.str "x"])]⟩ (by decide)⟩

/-- C10: a zero-row table that still has all four required columns computes
successfully — the total-Taken test takes the zero branch and ranking and
sorting run on empty data — returning a result whose every column is empty
and which contains the four derived columns. -/
theorem C10_empty_table (df : DataFrame) (hreq : ∀ c ∈ needed, c ∈ df.headers)
    (hempty : ∀ p ∈ df.cols, p.2 = []) :
    ∃ res, compute_ipmp df = Except.ok res ∧ (∀ p ∈ res.cols, p.2 = []) ∧
      "Beza Peratus (PPC - OTR2)" ∈ res.headers ∧ "Pemberat" ∈ res.headers ∧
      "IPMP" ∈ res.headers ∧ "Ranking" ∈ res.headers := by
  have hwf : WFn df 0 := by
    intro p hp
    rw [hempty p hp]
    rfl
  obtain ⟨hslen, hsmem, hperm⟩ := result_facts df 0 hwf hreq
  have hordnil : sortOrder (finalFrame df) = [] := List.length_eq_zero.mp hslen
  refine ⟨sortByRanking (finalFrame df), compute_ipmp_ok df hreq, ?_, ?_, ?_, ?_, ?_⟩
  · exact sortByRanking_empty (finalFrame df) hordnil
  · rw [sortByRanking_headers]
    exact final_mem_of_req df hreq "Beza Peratus (PPC - OTR2)" (by decide)
      (Or.inr (by decide))
  · rw [sortByRanking_headers]
    exact final_mem_of_req df hreq "Pemberat" (by decide) (Or.inr (by decide))
  · rw [sortByRanking_headers]
    exact final_mem_of_req df hreq "IPMP" (by decide) (Or.inr (by decide))
  · rw [sortByRanking_headers]
    exact final_mem_of_req df hreq "Ranking" (by decide) (Or.inr (by decide))

/-- Witness for `C10_empty_table` on the concrete zero-row table with
exactly the four required columns. -/
theorem C10_empty_table_witness :
    (∀ c ∈ needed, c ∈ (DataFrame.mk [("Mata Pelajaran", []), ("Bil. Ambil", []),
      ("% L PPC", []), ("% L OTR2", [])]).headers) ∧
    (∀ p ∈ (DataFrame.mk [("Mata Pelajaran", []), ("Bil. Ambil", []),
      ("% L PPC", []), ("% L OTR2", [])]).cols, p.2 = []) ∧
    (∃ res, compute_ipmp ⟨[("Mata Pelajaran", []), ("Bil. Ambil", []),
        ("% L PPC", []), ("% L OTR2", [])]⟩ = Except.ok res ∧
      (∀ p ∈ res.cols, p.2 = []) ∧
      "Beza Peratus (PPC - OTR2)" ∈ res.headers ∧ "Pemberat" ∈ res.headers ∧
      "IPMP" ∈ res.headers ∧ "Ranking" ∈ res.headers) :=
  ⟨by decide, by decide,
    C10_empty_table ⟨[("Mata Pelajaran", []), ("Bil. Ambil", []),
      ("% L PPC", []), ("% L OTR2", [])]⟩ (by decide) (by decide)⟩
